import Mathlib

/-!
# Verification of the WebUntis client (`src/node/src/webuntis.js`)

Shallow embedding of the client's core: the compact date/time codec, the
session-gated operations, and the weekly-timetable normalizer.

Modelling conventions:

* JavaScript `Date` objects are time values: milliseconds since the epoch,
  timezone-naive (`Int`).  An *Invalid Date* (time value `NaN`) is `none` in
  `Option Int`.  Getters and setters follow ECMAScript's `MakeDay`/`MakeDate`
  semantics on the proleptic Gregorian calendar; the calendar conversion
  `civilFromDays`/`daysFromCivil` uses the standard era-based algorithm.
  The ECMAScript `TimeClip` range restriction (±8.64e15 ms) is not modelled;
  all values appearing in the claims are far inside that range.
* `new Date()` (the current moment) is modelled by an explicit `now : Int`
  parameter threaded through every function that constructs a `Date`.
* JavaScript numbers that can be `NaN` (results of `parseInt`) are
  `Option Int`, with `none` for `NaN`; arithmetic on them propagates `none`.
* Strings are Lean `String`s; the helpers (`padStart`, `slice`, `trim`,
  `parseInt`, number-to-string) mirror the corresponding JS operations for
  the value space that occurs here (ASCII digits, spaces, `-` separators).
* A thrown `TypeError` from reading a property of `undefined` (an
  *undefined-access crash*) is distinguished from the deliberately thrown
  `Error`s of the source; see `NormError` and `OpErr`.
* The HTTP transport is abstracted: each operation takes the parsed
  response (or the error body text for a non-ok status) as an argument and
  additionally returns how many network requests it issued, so that
  "fails before any network call" is expressible.
* `Array.prototype.sort` is required by ECMAScript to be a stable sort;
  it is modelled by a stable insertion sort (`jsStableSort`).
-/

/-! ## JS string and number primitives -/

/-- Decimal digit characters of `n`, most significant first (fuel-indexed so
that the definition is structural and kernel-reducible). -/
def natDigitsAux : Nat → Nat → List Char
  | 0, _ => []
  | fuel+1, n =>
    if n < 10 then [Char.ofNat (48 + n)]
    else natDigitsAux fuel (n / 10) ++ [Char.ofNat (48 + n % 10)]

/-- Decimal digits of a natural number, most significant first. -/
def natDigits (n : Nat) : List Char := natDigitsAux (n + 1) n

/-- JS `String(n)` / `n.toString()` for a nonnegative integer value. -/
def jsToString (n : Nat) : String := ⟨natDigits n⟩

/-- JS `String(i)` / `i.toString()` for an integer value. -/
def intToString (i : Int) : String :=
  if i < 0 then ⟨'-' :: natDigits (-i).toNat⟩ else ⟨natDigits i.toNat⟩

/-- JS `String.prototype.padStart(n, c)` with a one-character pad string. -/
def padStart (s : String) (n : Nat) (c : Char) : String :=
  ⟨List.replicate (n - s.length) c ++ s.data⟩

/-- JS `String.prototype.slice(a, b)` for `0 ≤ a ≤ b` (the only uses here). -/
def strSlice (s : String) (a b : Nat) : String := ⟨(s.data.drop a).take (b - a)⟩

/-- JS `String.prototype.trim()`; the strings of this program only ever carry
ordinary spaces as whitespace. -/
def jsTrim (s : String) : String :=
  ⟨((s.data.dropWhile (· = ' ')).reverse.dropWhile (· = ' ')).reverse⟩

/-- Value of the longest leading run of decimal digits, `none` if it is
empty — the digit-consuming core of JS `parseInt`. -/
def leadDigits (cs : List Char) : Option Nat :=
  let ds := cs.takeWhile (·.isDigit)
  if ds.isEmpty then none
  else some (ds.foldl (fun a c => a * 10 + (c.toNat - 48)) 0)

/-- JS `parseInt(s)` (radix 10): skip leading whitespace, optional sign,
longest digit prefix; `none` models `NaN`. -/
def parseIntOpt (s : String) : Option Int :=
  match s.data.dropWhile (· = ' ') with
  | [] => none
  | c :: rest =>
    if c = '-' then (leadDigits rest).map (fun n => -(n : Int))
    else if c = '+' then (leadDigits rest).map Int.ofNat
    else (leadDigits (c :: rest)).map Int.ofNat

/-! ## Calendar arithmetic (proleptic Gregorian, as used by ECMAScript) -/

/-- Gregorian leap-year rule (ECMAScript `DaysInYear`). -/
def isLeap (y : Int) : Bool := decide (y % 4 = 0 ∧ y % 100 ≠ 0 ∨ y % 400 = 0)

/-- Days in month `m` (1–12) of year `y`. -/
def daysInMonth (y : Int) (m : Nat) : Int :=
  if m = 2 then (if isLeap y then 29 else 28)
  else if m = 4 ∨ m = 6 ∨ m = 9 ∨ m = 11 then 30
  else 31

/-- Day-of-era of March 1 of civil (March-based) year `yoe` (0–399). -/
def yearStartN (yoe : Nat) : Nat := 365 * yoe + yoe / 4 - yoe / 100

/-- Whether civil (March-based) year `yoe` of an era contains a Feb 29. -/
def civilLeapN (yoe : Nat) : Bool :=
  decide ((yoe + 1) % 4 = 0 ∧ (yoe + 1) % 100 ≠ 0 ∨ (yoe + 1) % 400 = 0)

/-- Length in days of civil (March-based) year `yoe`. -/
def civilYearLenN (yoe : Nat) : Nat := if civilLeapN yoe then 366 else 365

/-- First day-of-civil-year of shifted month `mp` (0 = March … 11 = February). -/
def monthStartN (mp : Nat) : Nat := (153 * mp + 2) / 5

/-- Maximal length of shifted month `mp` (February counted with 29). -/
def mpLen (mp : Nat) : Nat :=
  if mp = 11 then 29
  else if mp = 1 ∨ mp = 3 ∨ mp = 6 ∨ mp = 8 then 30
  else 31

/-- Length of shifted month `mp` in civil year `yoe`. -/
def dimShiftedN (yoe mp : Nat) : Nat :=
  if mp = 11 then (if civilLeapN yoe then 29 else 28) else mpLen mp

/-- Year-extraction helper of the day-to-date algorithm. -/
def gN (x : Nat) : Nat := x - x / 1460 + x / 36524 - x / 146096

/-- Civil year-of-era of a day-of-era (0–146096). -/
def yoeOfDoe (doe : Nat) : Nat := gN doe / 365

/-- Days since the epoch (1970-01-01) of the Gregorian date `y-m-d`
(`m` 1–12); the standard era-based conversion. -/
def daysFromCivil (y m d : Int) : Int :=
  let y' := if m ≤ 2 then y - 1 else y
  let era := y' / 400
  let yoe := y' - era * 400
  let mp := (m + 9) % 12
  let doy := (153 * mp + 2) / 5 + d - 1
  let doe := yoe * 365 + yoe / 4 - yoe / 100 + doy
  era * 146097 + doe - 719468

/-- Civil `(year-of-era, month 1–12, day)` of a day-of-era (0–146096). -/
def civilOfDoe (doe : Nat) : Nat × Nat × Nat :=
  let yoe := yoeOfDoe doe
  let doy := doe - yearStartN yoe
  let mp := (5 * doy + 2) / 153
  (yoe, if mp < 10 then mp + 3 else mp - 9, doy - monthStartN mp + 1)

/-- Gregorian date `(y, m, d)` (`m` 1–12) of a days-since-epoch value. -/
def civilFromDays (z : Int) : Int × Int × Int :=
  let zd := z + 719468
  let era := zd / 146097
  let c := civilOfDoe (zd - era * 146097).toNat
  ((era * 400 + c.1 : Int) + (if c.2.1 ≤ 2 then 1 else 0), (c.2.1 : Int), (c.2.2 : Int))

/-! ## JS `Date` time values (ECMAScript semantics, timezone-naive) -/

def msPerSecond : Int := 1000
def msPerMinute : Int := 60000
def msPerHour : Int := 3600000
def msPerDay : Int := 86400000

/-- ECMAScript `Day(t)`. -/
def jsDay (t : Int) : Int := t / msPerDay

/-- ECMAScript `TimeWithinDay(t)`. -/
def timeWithinDay (t : Int) : Int := t % msPerDay

/-- Model of `Date.prototype.getFullYear`. -/
def getFullYear (t : Int) : Int := (civilFromDays (jsDay t)).1

/-- Model of `Date.prototype.getMonth` (0-based month, as in JS). -/
def getMonth (t : Int) : Int := (civilFromDays (jsDay t)).2.1 - 1

/-- Model of `Date.prototype.getDate` (day of month). -/
def getDate (t : Int) : Int := (civilFromDays (jsDay t)).2.2

/-- Model of `Date.prototype.getHours`. -/
def getHours (t : Int) : Int := timeWithinDay t / msPerHour

/-- Model of `Date.prototype.getMinutes`. -/
def getMinutes (t : Int) : Int := (t / msPerMinute) % 60

/-- Model of `Date.prototype.getSeconds`. -/
def getSeconds (t : Int) : Int := (t / msPerSecond) % 60

/-- Model of `Date.prototype.getMilliseconds`. -/
def getMilliseconds (t : Int) : Int := t % msPerSecond

/-- ECMAScript `MakeDay(y, m0, d)`: `m0` is 0-based and may be out of range;
it is folded into the year, and an out-of-range `d` rolls over by day
arithmetic. -/
def makeDay (y m0 d : Int) : Int :=
  daysFromCivil (y + m0 / 12) (m0 % 12 + 1) d

/-- Model of `Date.prototype.setDate` on a valid time value. -/
def setDateT (t d : Int) : Int :=
  makeDay (getFullYear t) (getMonth t) d * msPerDay + timeWithinDay t

/-- Model of `Date.prototype.setFullYear` on a valid time value. -/
def setFullYearT (t y : Int) : Int :=
  makeDay y (getMonth t) (getDate t) * msPerDay + timeWithinDay t

/-- Model of `Date.prototype.setMonth` on a valid time value (`m0` 0-based). -/
def setMonthT (t m0 : Int) : Int :=
  makeDay (getFullYear t) m0 (getDate t) * msPerDay + timeWithinDay t

/-- Model of `Date.prototype.setHours` on a valid time value. -/
def setHoursT (t h : Int) : Int :=
  jsDay t * msPerDay + h * msPerHour + getMinutes t * msPerMinute
    + getSeconds t * msPerSecond + getMilliseconds t

/-- Model of `Date.prototype.setMinutes` on a valid time value. -/
def setMinutesT (t m : Int) : Int :=
  jsDay t * msPerDay + getHours t * msPerHour + m * msPerMinute
    + getSeconds t * msPerSecond + getMilliseconds t

/-- Model of `Date.prototype.setSeconds` on a valid time value. -/
def setSecondsT (t s : Int) : Int :=
  jsDay t * msPerDay + getHours t * msPerHour + getMinutes t * msPerMinute
    + s * msPerSecond + getMilliseconds t

/-- Model of `Date.prototype.setMilliseconds` on a valid time value. -/
def setMillisecondsT (t ms : Int) : Int :=
  jsDay t * msPerDay + getHours t * msPerHour + getMinutes t * msPerMinute
    + getSeconds t * msPerSecond + ms

/-- Lifted `setDate` on a possibly-invalid date with a possibly-`NaN` argument. -/
def setDateO (t d : Option Int) : Option Int :=
  match t, d with
  | some t, some d => some (setDateT t d)
  | _, _ => none

/-- Lifted `setFullYear`, which per ECMAScript treats an invalid date as time `+0`. -/
def setFullYearO (t y : Option Int) : Option Int :=
  match y with
  | some y => some (setFullYearT (t.getD 0) y)
  | none => none

/-- Lifted `setMonth` on a possibly-invalid date. -/
def setMonthO (t m0 : Option Int) : Option Int :=
  match t, m0 with
  | some t, some m0 => some (setMonthT t m0)
  | _, _ => none

/-- Lifted `setHours` on a possibly-invalid date. -/
def setHoursO (t h : Option Int) : Option Int :=
  match t, h with
  | some t, some h => some (setHoursT t h)
  | _, _ => none

/-- Lifted `setMinutes` on a possibly-invalid date. -/
def setMinutesO (t m : Option Int) : Option Int :=
  match t, m with
  | some t, some m => some (setMinutesT t m)
  | _, _ => none

/-- Lifted `setSeconds` on a possibly-invalid date. -/
def setSecondsO (t s : Option Int) : Option Int :=
  match t, s with
  | some t, some s => some (setSecondsT t s)
  | _, _ => none

/-- Lifted `setMilliseconds` on a possibly-invalid date. -/
def setMillisecondsO (t ms : Option Int) : Option Int :=
  match t, ms with
  | some t, some ms => some (setMillisecondsT t ms)
  | _, _ => none

/-- The time value of midnight of `y-m-d`, i.e. a date-only `Date`. -/
def dateValue (y m d : Int) : Int := daysFromCivil y m d * msPerDay

/-! ## The time codec of `webuntis.js` -/

/-- Result shape of `WebUntis.parseUntisTime`: `{hour, minute}`, each possibly
`NaN`. -/
structure UntisTime where
  hour : Option Int
  minute : Option Int
deriving DecidableEq, Repr

/-- Embedding of `WebUntis.parseUntisTime(untisTime)` (the payload passes numbers):
pads the decimal string to 4 characters **with spaces**, splits 2/2, trims,
and `parseInt`s each half. -/
def parseUntisTime (untisTime : Nat) : UntisTime :=
  let timeString := padStart (jsToString untisTime) 4 ' '
  { hour := parseIntOpt (jsTrim (strSlice timeString 0 2)),
    minute := parseIntOpt (jsTrim (strSlice timeString 2 4)) }

/-- Embedding of `WebUntis.parseUntisDate(untisDate)` on a string argument.  It mutates a
`new Date()` (modelled by `now`): `setDate`, `setFullYear`, `setMonth`, then
zeroes the time-of-day fields. -/
def parseUntisDate (now : Int) (untisDate : String) : Option Int :=
  let dateString := untisDate
  let year := parseIntOpt (strSlice dateString 0 4)
  let month := parseIntOpt (strSlice dateString 4 6)
  let day := parseIntOpt (strSlice dateString 6 8)
  setMillisecondsO
    (setSecondsO
      (setMinutesO
        (setHoursO
          (setMonthO
            (setFullYearO (setDateO (some now) day) year)
            (month.map (· - 1)))
          (some 0))
        (some 0))
      (some 0))
    (some 0)

/-- Wrapper for `parseUntisDate` on a numeric argument (`untisDate.toString()`). -/
def parseUntisDateNum (now : Int) (untisDate : Nat) : Option Int :=
  parseUntisDate now (jsToString untisDate)

/-- Embedding of `WebUntis.parseUntisDateTime(untisDate, untisTime)`: parse both, then
`setHours(hour + 1)` (the deliberate one-hour offset) and
`setMinutes(minute)`. -/
def parseUntisDateTime (now : Int) (untisDate untisTime : Nat) : Option Int :=
  let date := parseUntisDateNum now untisDate
  let time := parseUntisTime untisTime
  setMinutesO (setHoursO date (time.hour.map (· + 1))) time.minute

/-- The composition described by the specification for
`parseCompactDateTime`: compose the date and time parsers, then set the
result's hour to the parsed hour plus one and its minute to the parsed
minute. -/
def specCompactDateTime (now : Int) (untisDate untisTime : Nat) : Option Int :=
  let date := parseUntisDateNum now untisDate
  let time := parseUntisTime untisTime
  setMinutesO (setHoursO date (time.hour.map (· + 1))) time.minute

/-- Embedding of `WebUntis.dateToUntisDate(date, separator)`: `YYYY<sep>MM<sep>DD` with
month and day zero-padded to two digits (the year is **not** padded). -/
def dateToUntisDate (date : Int) (separator : String := "") : String :=
  let day := padStart (intToString (getDate date)) 2 '0'
  let month := padStart (intToString (getMonth date + 1)) 2 '0'
  intToString (getFullYear date) ++ separator ++ month ++ separator ++ day

/-! ## Timetable normalization -/

/-- An element reference `{id, type}` inside a raw period. -/
structure ElemRef where
  type : Int
  id : Int
deriving DecidableEq, Repr

/-- A raw entity from `data.elements` (other fields of the payload are
never read by the client). -/
structure RawElement where
  type : Int
  id : Int
  name : String
deriving DecidableEq, Repr

/-- The `is` object of a raw period; `cancelled` may be absent
(`undefined`). -/
structure IsFlags where
  cancelled : Option Bool
deriving DecidableEq, Repr

/-- A raw period from `data.elementPeriods[...]` (fields the client reads). -/
structure RawPeriod where
  date : Nat
  startTime : Nat
  endTime : Nat
  elements : List ElemRef
  is : IsFlags
deriving DecidableEq, Repr

/-- A resolved timetable entry; the dates are `Option Int` because a
malformed compact encoding yields an Invalid Date, not an exception. -/
structure TimetableEntry where
  startDate : Option Int
  endDate : Option Int
  subject : String
  cancelled : Bool
deriving DecidableEq, Repr

/-- How normalization can abort.  The source only ever produces
`crashUndefined` — a `TypeError` from reading a property of `undefined`;
`missingReference` (a deliberate, surfaced missing-reference error, as the
specification describes) exists in this type solely so the distinction is
expressible, and is never produced by the embedded code. -/
inductive NormError where
  | crashUndefined
  | missingReference
deriving DecidableEq, Repr

/-- One step of the per-type `reduce`: insert `cur` keyed by its id unless an
entry with that id is already present (`if (!acc[cur.id]) acc[cur.id] = cur`). -/
def insertIfAbsent (acc : List (Int × RawElement)) (cur : RawElement) :
    List (Int × RawElement) :=
  if (acc.lookup cur.id).isSome then acc else acc ++ [(cur.id, cur)]

/-- The entity index for one type: `elements[type]` after the group-by and the
dedup `reduce`.  `none` when no element of that type exists (`elements[type]`
is `undefined`). -/
def buildTypeIndex (elems : List RawElement) (t : Int) :
    Option (List (Int × RawElement)) :=
  let ofType := elems.filter (fun e => e.type = t)
  if ofType.isEmpty then none else some (ofType.foldl insertIfAbsent [])

/-- Resolution of one raw period, mirroring the loop body: parse the end and
start date-times, then read
`elements['3'][rawPer.elements.filter(e => e.type == 3)[0].id].name`.
Each of the three possible `undefined`s in that chain makes the next property
access throw a `TypeError` (`crashUndefined`). -/
def resolvePeriod (now : Int) (elems : List RawElement) (p : RawPeriod) :
    Except NormError TimetableEntry :=
  let endDate := parseUntisDateTime now p.date p.endTime
  let startDate := parseUntisDateTime now p.date p.startTime
  match (p.elements.filter (fun e => e.type = 3)).head? with
  | none => .error .crashUndefined
  | some r =>
    match buildTypeIndex elems 3 with
    | none => .error .crashUndefined
    | some idx =>
      match idx.lookup r.id with
      | none => .error .crashUndefined
      | some el =>
        .ok { startDate := startDate, endDate := endDate,
              subject := el.name,
              cancelled := p.is.cancelled.getD false }

/-- The `for (const rawPer of rawPeriods)` loop: resolve in payload order,
aborting at the first crash. -/
def resolvePeriods (now : Int) (elems : List RawElement) :
    List RawPeriod → Except NormError (List TimetableEntry)
  | [] => .ok []
  | p :: ps =>
    match resolvePeriod now elems p with
    | .error e => .error e
    | .ok entry =>
      match resolvePeriods now elems ps with
      | .error e => .error e
      | .ok rest => .ok (entry :: rest)

/-- The comparator `(a, b) => a.startDate - b.startDate`: JS `Date`
subtraction gives the difference of time values, and `NaN` comparator
results (an Invalid Date on either side) are treated as `±0` by the sort. -/
def jsCmp (a b : Option Int) : Int :=
  match a, b with
  | some x, some y => x - y
  | _, _ => 0

/-- The `le` form of the comparator, as a sort algorithm consumes it. -/
def periodLe (a b : TimetableEntry) : Bool :=
  decide (jsCmp a.startDate b.startDate ≤ 0)

/-- Stable insertion of `a` in front of the first element not strictly below
it, used to model the (spec-mandated stable) `Array.prototype.sort`. -/
def jsSortInsert (le : α → α → Bool) (a : α) : List α → List α
  | [] => [a]
  | b :: l => if le a b then a :: b :: l else b :: jsSortInsert le a l

/-- A stable sort: earlier input elements are inserted in front of later,
tied ones.  Extensionally this is any ECMAScript-conforming
`Array.prototype.sort` whenever the comparator is consistent. -/
def jsStableSort (le : α → α → Bool) : List α → List α
  | [] => []
  | a :: l => jsSortInsert le a (jsStableSort le l)

/-- Embedding of `periods.sort((a, b) => a.startDate - b.startDate)`. -/
def sortPeriods (l : List TimetableEntry) : List TimetableEntry :=
  jsStableSort periodLe l

/-- The whole normalization performed by `getTimetableWeek` on the raw
payload: resolve every period, then sort by start date. -/
def normalizeTimetable (now : Int) (elems : List RawElement)
    (ps : List RawPeriod) : Except NormError (List TimetableEntry) :=
  (resolvePeriods now elems ps).map sortPeriods

/-! ## The client facade -/

/-- The mutable session state of a `WebUntis` instance: `school` from the
constructor, `personId`/`sessionId` `null` until `authenticate` stores
them. -/
structure Client where
  school : String
  personId : Option Int
  sessionId : Option String
deriving DecidableEq, Repr

/-- The errors an operation can surface.  The source throws plain `Error`s;
the constructors record the distinct error conditions:
`invalidArgument` = "Insufficient arguments…", `unauthenticated` =
"Unauthenticated instance", `requestFailed body` = the non-ok response body
thrown by `WebUntis.request`, `protocolError` = "Missing response data", and
`jsCrash` = a `TypeError` from accessing a property of `undefined`. -/
inductive OpErr where
  | invalidArgument
  | unauthenticated
  | requestFailed (body : String)
  | protocolError
  | jsCrash
deriving DecidableEq, Repr

/-- Embedding of `new WebUntis(school)`. -/
def mkClient (school : String) : Except OpErr Client :=
  if school = "" then .error .invalidArgument
  else .ok { school := school, personId := none, sessionId := none }

/-- The `result` field of the authenticate RPC response. -/
structure AuthResult where
  sessionId : Option String
  personId : Option Int
deriving DecidableEq, Repr

/-- The parsed authenticate response body (`result` may be absent). -/
structure AuthResponse where
  result : Option AuthResult
deriving DecidableEq, Repr

/-- Embedding of `WebUntis#authenticate(username, password)`.  `resp` is what the single
network request would yield (`Except.error body` models a non-ok status, whose
body text `WebUntis.request` throws).  Returns the operation result, the
client state afterwards, and the number of network requests issued. -/
def authenticate (c : Client) (username password : String)
    (resp : Except String AuthResponse) :
    Except OpErr (String × Int) × Client × Nat :=
  if username = "" ∨ password = "" then (.error .invalidArgument, c, 0)
  else
    match resp with
    | .error body => (.error (.requestFailed body), c, 1)
    | .ok r =>
      match r.result with
      | none => (.error .jsCrash, c, 1)
      | some res =>
        let sessionId := res.sessionId.getD ""
        let personId := res.personId.getD 0
        if sessionId = "" ∨ personId = 0 then (.error .protocolError, c, 1)
        else (.ok (sessionId, personId),
              { c with personId := some personId, sessionId := some sessionId },
              1)

/-- One raw absence record (the fields the client reads). -/
structure RawAbsence where
  startDate : Nat
  endDate : Nat
  startTime : Nat
  endTime : Nat
  isExcused : Bool
deriving DecidableEq, Repr

/-- A resolved absence. -/
structure Absence where
  startDate : Option Int
  endDate : Option Int
  excused : Bool
deriving DecidableEq, Repr

/-- The `data` field of the absences response: `absences` is `none` when the
field is missing, `null`, or not array-like (no `length`). -/
structure AbsencesData where
  absences : Option (List RawAbsence)
deriving DecidableEq, Repr

/-- The parsed absences response body; destructuring `.data` of a response
without `data` throws. -/
structure AbsencesResponse where
  data : Option AbsencesData
deriving DecidableEq, Repr

/-- Embedding of `WebUntis#getAbsences(startDate, endDate)`; argument `none` models a
missing/falsy `Date` argument. -/
def getAbsences (now : Int) (c : Client) (startDate endDate : Option Int)
    (resp : Except String AbsencesResponse) :
    Except OpErr (List Absence) × Nat :=
  if c.sessionId.isNone then (.error .unauthenticated, 0)
  else if startDate.isNone ∨ endDate.isNone then (.error .invalidArgument, 0)
  else
    match resp with
    | .error body => (.error (.requestFailed body), 1)
    | .ok r =>
      match r.data with
      | none => (.error .jsCrash, 1)
      | some d =>
        match d.absences with
        | none => (.error .protocolError, 1)
        | some l =>
          (.ok (l.map fun e =>
            { startDate := parseUntisDateTime now e.startDate e.startTime,
              endDate := parseUntisDateTime now e.endDate e.endTime,
              excused := e.isExcused }), 1)

/-- The `result` field of the `getCurrentSchoolyear` RPC response. -/
structure SchoolyearResult where
  name : Option String
  startDate : Option Nat
  endDate : Option Nat
deriving DecidableEq, Repr

/-- The parsed `getCurrentSchoolyear` response body. -/
structure SchoolyearResponse where
  result : Option SchoolyearResult
deriving DecidableEq, Repr

/-- Embedding of `WebUntis#getCurrentSchoolyear()`. -/
def getCurrentSchoolyear (now : Int) (c : Client)
    (resp : Except String SchoolyearResponse) :
    Except OpErr (String × Option Int × Option Int) × Nat :=
  if c.sessionId.isNone then (.error .unauthenticated, 0)
  else
    match resp with
    | .error body => (.error (.requestFailed body), 1)
    | .ok r =>
      match r.result with
      | none => (.error .jsCrash, 1)
      | some res =>
        let name := res.name.getD ""
        if name = "" ∨ res.startDate.getD 0 = 0 ∨ res.endDate.getD 0 = 0 then
          (.error .protocolError, 1)
        else
          (.ok (name, parseUntisDateNum now (res.startDate.getD 0),
                parseUntisDateNum now (res.endDate.getD 0)), 1)

/-- The innermost timetable payload `result.data.result.data`: `elements`
is `none` when the field is missing (iterating it would throw);
`elementPeriods` is an object keyed by element id. -/
structure TTData where
  elements : Option (List RawElement)
  elementIds : List Int
  elementPeriods : List (Int × List RawPeriod)
deriving DecidableEq, Repr

/-- The `result.data.result` wrapper. -/
structure TTInner where
  data : Option TTData
deriving DecidableEq, Repr

/-- The `result.data` wrapper. -/
structure TTOuter where
  result : Option TTInner
deriving DecidableEq, Repr

/-- The parsed timetable response body. -/
structure TTResponse where
  data : Option TTOuter
deriving DecidableEq, Repr

/-- Embedding of `WebUntis#getTimetableWeek(date)`.  Note the argument check precedes the
session check in the source.  Every `undefined` on the
`result.data.result.data` path, a missing `elements`, an empty `elementIds`,
or an unknown id in `elementPeriods` leads to a thrown `TypeError`
(`jsCrash`), as does a crash inside the normalization loop. -/
def getTimetableWeek (now : Int) (c : Client) (date : Option Int)
    (resp : Except String TTResponse) :
    Except OpErr (List TimetableEntry) × Nat :=
  if date.isNone then (.error .invalidArgument, 0)
  else if c.sessionId.isNone then (.error .unauthenticated, 0)
  else
    match resp with
    | .error body => (.error (.requestFailed body), 1)
    | .ok r =>
      match r.data with
      | none => (.error .jsCrash, 1)
      | some o =>
        match o.result with
        | none => (.error .jsCrash, 1)
        | some i =>
          match i.data with
          | none => (.error .jsCrash, 1)
          | some d =>
            match d.elements with
            | none => (.error .jsCrash, 1)
            | some elems =>
              match d.elementIds.head? with
              | none => (.error .jsCrash, 1)
              | some eid =>
                match d.elementPeriods.lookup eid with
                | none => (.error .jsCrash, 1)
                | some rawPeriods =>
                  match normalizeTimetable now elems rawPeriods with
                  | .error _ => (.error .jsCrash, 1)
                  | .ok out => (.ok out, 1)

/-! ## Calendar lemmas: the era-based conversion is a bijection -/

theorem gN_step (x : Nat) (h : x < 146096) : gN x ≤ gN (x + 1) := by
  unfold gN
  omega

theorem gN_mono {a b : Nat} (hab : a ≤ b) (hb : b ≤ 146096) : gN a ≤ gN b := by
  induction b with
  | zero =>
    have : a = 0 := by omega
    simp [this]
  | succ n ih =>
    rcases Nat.lt_or_ge a (n + 1) with h | h
    · have h1 : gN a ≤ gN n := ih (by omega) (by omega)
      have h2 := gN_step n (by omega)
      omega
    · have : a = n + 1 := by omega
      simp [this]

set_option maxRecDepth 4000 in
theorem yearStart_endpoints : ∀ yoe < 400,
    365 * yoe ≤ gN (yearStartN yoe) ∧
    gN (yearStartN yoe + civilYearLenN yoe - 1) ≤ 365 * yoe + 364 ∧
    yearStartN yoe + civilYearLenN yoe ≤ 146097 := by decide

theorem yoeOfDoe_eq {yoe doe : Nat} (h4 : yoe < 400)
    (h1 : yearStartN yoe ≤ doe) (h2 : doe < yearStartN yoe + civilYearLenN yoe) :
    yoeOfDoe doe = yoe := by
  obtain ⟨e1, e2, e3⟩ := yearStart_endpoints yoe h4
  have m1 : gN (yearStartN yoe) ≤ gN doe := gN_mono h1 (by omega)
  have m2 : gN doe ≤ gN (yearStartN yoe + civilYearLenN yoe - 1) :=
    gN_mono (by omega) (by omega)
  unfold yoeOfDoe
  omega

set_option maxRecDepth 4000 in
theorem yearStart_succ : ∀ yoe < 399,
    yearStartN (yoe + 1) = yearStartN yoe + civilYearLenN yoe := by decide

theorem civilYearLenN_ge (yoe : Nat) : 365 ≤ civilYearLenN yoe ∧ civilYearLenN yoe ≤ 366 := by
  unfold civilYearLenN
  split <;> omega

theorem doe_mem_year : ∀ doe < 146097, ∃ yoe, yoe < 400 ∧
    yearStartN yoe ≤ doe ∧ doe < yearStartN yoe + civilYearLenN yoe := by
  intro doe
  induction doe with
  | zero => exact fun _ => ⟨0, by decide, by decide, by decide⟩
  | succ n ih =>
    intro h
    obtain ⟨yoe, h4, h1, h2⟩ := ih (by omega)
    rcases Nat.lt_or_ge (n + 1) (yearStartN yoe + civilYearLenN yoe) with hlt | hge
    · exact ⟨yoe, h4, by omega, hlt⟩
    · have hyoe : yoe < 399 := by
        rcases Nat.lt_or_ge yoe 399 with h' | h'
        · exact h'
        · have h399 : yoe = 399 := by omega
          subst h399
          have : yearStartN 399 + civilYearLenN 399 = 146097 := by decide
          omega
      have hs := yearStart_succ yoe hyoe
      have hlen := (civilYearLenN_ge (yoe + 1)).1
      exact ⟨yoe + 1, by omega, by omega, by omega⟩

set_option maxRecDepth 2000 in
theorem mp_recover : ∀ mp < 12, ∀ off < mpLen mp,
    (5 * (monthStartN mp + off) + 2) / 153 = mp := by decide

set_option maxRecDepth 2000 in
theorem mp_of_doy : ∀ doy < 366,
    (5 * doy + 2) / 153 < 12 ∧
    monthStartN ((5 * doy + 2) / 153) ≤ doy ∧
    doy - monthStartN ((5 * doy + 2) / 153) < mpLen ((5 * doy + 2) / 153) := by decide

theorem isLeap_civil (era : Int) (yoe : Nat) (h : yoe < 400) :
    isLeap (era * 400 + (yoe : Int) + 1) = civilLeapN yoe := by
  unfold isLeap civilLeapN
  simp only [decide_eq_decide]
  omega

theorem dimShiftedN_le_mpLen (yoe mp : Nat) : dimShiftedN yoe mp ≤ mpLen mp := by
  unfold dimShiftedN mpLen
  split
  · split <;> omega
  · omega

theorem doy_lt_len (yoe mp d : Nat) (hmp : mp < 12) (hd1 : 1 ≤ d)
    (hd : d ≤ dimShiftedN yoe mp) : monthStartN mp + (d - 1) < civilYearLenN yoe := by
  have hlen := civilYearLenN_ge yoe
  unfold dimShiftedN at hd
  by_cases h11 : mp = 11
  · subst h11
    have hms : monthStartN 11 = 337 := by decide
    simp only [if_pos rfl] at hd
    unfold civilYearLenN
    rcases hcl : civilLeapN yoe with hfalse | htrue
    all_goals simp [hcl] at hd ⊢ <;> omega
  · have hd' : d ≤ mpLen mp := by simpa [h11] using hd
    have : monthStartN mp + mpLen mp ≤ 366 ∧ (mp = 11 ∨ monthStartN mp + mpLen mp ≤ 365) := by
      interval_cases mp <;> simp_all <;> decide
    omega

theorem civilOfDoe_spec (doe : Nat) (h : doe < 146097) :
    ∃ yoe mp d, civilOfDoe doe = (yoe, if mp < 10 then mp + 3 else mp - 9, d) ∧
      yoe < 400 ∧ mp < 12 ∧ 1 ≤ d ∧ d ≤ dimShiftedN yoe mp ∧
      yearStartN yoe + (monthStartN mp + (d - 1)) = doe := by
  obtain ⟨yoe, h4, h1, h2⟩ := doe_mem_year doe h
  have hyoe : yoeOfDoe doe = yoe := yoeOfDoe_eq h4 h1 h2
  have h366 : doe - yearStartN yoe < 366 := by
    have := (civilYearLenN_ge yoe).2
    omega
  obtain ⟨hmplt, hms, hdlt⟩ := mp_of_doy (doe - yearStartN yoe) h366
  refine ⟨yoe, (5 * (doe - yearStartN yoe) + 2) / 153,
    (doe - yearStartN yoe) - monthStartN ((5 * (doe - yearStartN yoe) + 2) / 153) + 1,
    ?_, h4, hmplt, by omega, ?_, by omega⟩
  · unfold civilOfDoe
    rw [hyoe]
  · set doy := doe - yearStartN yoe with hdoy
    set mp := (5 * doy + 2) / 153 with hmp
    have hdoylt : doy < civilYearLenN yoe := by omega
    unfold dimShiftedN
    by_cases h11 : mp = 11
    · have hms11 : monthStartN 11 = 337 := by decide
      rw [h11] at hms hdlt ⊢
      simp only [if_pos rfl]
      unfold civilYearLenN at hdoylt
      rcases hcl : civilLeapN yoe with hf | ht
      all_goals simp [hcl, mpLen] at hdlt hdoylt ⊢ <;> omega
    · simp only [if_neg h11]
      omega


theorem civilFromDays_eq (era : Int) (doe : Nat) (h : doe < 146097) :
    civilFromDays (era * 146097 + (doe : Int) - 719468) =
      (era * 400 + (civilOfDoe doe).1 + (if (civilOfDoe doe).2.1 ≤ 2 then 1 else 0),
        ((civilOfDoe doe).2.1 : Int), ((civilOfDoe doe).2.2 : Int)) := by
  simp only [civilFromDays]
  have h1 : era * 146097 + (doe : Int) - 719468 + 719468 = era * 146097 + doe := by ring
  rw [h1]
  have h2 : (era * 146097 + (doe : Int)) / 146097 = era := by omega
  rw [h2]
  have h3 : era * 146097 + (doe : Int) - era * 146097 = (doe : Int) := by ring
  rw [h3, Int.toNat_natCast]


theorem yearStartN_cast (yoe : Nat) :
    (yearStartN yoe : Int) = 365 * (yoe : Int) + (yoe : Int) / 4 - (yoe : Int) / 100 := by
  unfold yearStartN
  omega

theorem monthStartN_cast (mp : Nat) :
    (monthStartN mp : Int) = (153 * (mp : Int) + 2) / 5 := by
  unfold monthStartN
  omega


theorem daysFromCivil_shift (era : Int) (yoe m d : Nat)
    (h4 : yoe < 400) (hm1 : 1 ≤ m) (hm2 : m ≤ 12) :
    daysFromCivil (era * 400 + (yoe : Int) + (if m ≤ 2 then 1 else 0)) (m : Int) (d : Int) =
      era * 146097 + (yearStartN yoe : Int) +
        (monthStartN (if m ≤ 2 then m + 9 else m - 3) : Int) + (d : Int) - 1 - 719468 := by
  rw [yearStartN_cast]
  by_cases hm : m ≤ 2
  · have hmc : ((m : Nat) : Int) ≤ 2 := by exact_mod_cast hm
    rw [if_pos hm, if_pos hm, monthStartN_cast]
    simp only [daysFromCivil, if_pos hmc]
    rw [show era * 400 + (yoe : Int) + 1 - 1 = era * 400 + yoe by ring]
    rw [show (era * 400 + (yoe : Int)) / 400 = era by omega]
    rw [show era * 400 + (yoe : Int) - era * 400 = yoe by ring]
    rw [show ((m : Int) + 9) % 12 = (m : Int) + 9 by omega]
    rw [show ((m + 9 : Nat) : Int) = (m : Int) + 9 by omega]
    ring
  · have hmc : ¬ ((m : Nat) : Int) ≤ 2 := by exact_mod_cast hm
    rw [if_neg hm, if_neg hm, monthStartN_cast]
    simp only [daysFromCivil, if_neg hmc]
    rw [show era * 400 + (yoe : Int) + 0 = era * 400 + yoe by ring]
    rw [show (era * 400 + (yoe : Int)) / 400 = era by omega]
    rw [show era * 400 + (yoe : Int) - era * 400 = yoe by ring]
    rw [show ((m : Int) + 9) % 12 = (m : Int) - 3 by omega]
    rw [show ((m - 3 : Nat) : Int) = (m : Int) - 3 by omega]
    ring

theorem dimShifted_daysInMonth (era : Int) (yoe m : Nat) (h4 : yoe < 400)
    (hm1 : 1 ≤ m) (hm2 : m ≤ 12) :
    (dimShiftedN yoe (if m ≤ 2 then m + 9 else m - 3) : Int) =
      daysInMonth (era * 400 + (yoe : Int) + (if m ≤ 2 then 1 else 0)) m := by
  unfold dimShiftedN daysInMonth mpLen
  interval_cases m <;>
    first
      | (norm_num
         done)
      | (norm_num
         rw [isLeap_civil era yoe h4])

theorem civilFromDays_valid (z : Int) :
    1 ≤ (civilFromDays z).2.1 ∧ (civilFromDays z).2.1 ≤ 12 ∧
    1 ≤ (civilFromDays z).2.2 ∧
    (civilFromDays z).2.2 ≤ daysInMonth (civilFromDays z).1 (civilFromDays z).2.1.toNat ∧
    daysFromCivil (civilFromDays z).1 (civilFromDays z).2.1 (civilFromDays z).2.2 = z := by
  set era := (z + 719468) / 146097 with herad
  set doe := ((z + 719468) % 146097).toNat with hdoed
  have hz : z = era * 146097 + (doe : Int) - 719468 := by omega
  have hdoe97 : doe < 146097 := by omega
  obtain ⟨yoe, mp, d, hc, h4, hmp, hd1, hdim, hrec⟩ := civilOfDoe_spec doe hdoe97
  rcases Nat.lt_or_ge mp 10 with h10 | h10
  · -- March … December: m = mp + 3, no year shift
    rw [if_pos h10] at hc
    have hioc : civilFromDays z =
        (era * 400 + (yoe : Int) + (if mp + 3 ≤ 2 then 1 else 0),
          ((mp + 3 : Nat) : Int), (d : Int)) := by
      rw [hz, civilFromDays_eq era doe hdoe97, hc]
    rw [hioc]
    dsimp only
    have hni : ¬ mp + 3 ≤ 2 := by omega
    have hsh := daysFromCivil_shift era yoe (mp + 3) d h4 (by omega) (by omega)
    rw [if_neg hni, if_neg hni, show mp + 3 - 3 = mp by omega] at hsh
    rw [if_neg hni]
    have hdm := dimShifted_daysInMonth era yoe (mp + 3) h4 (by omega) (by omega)
    rw [if_neg hni, if_neg hni, show mp + 3 - 3 = mp by omega] at hdm
    refine ⟨by omega, by omega, by omega, ?_, ?_⟩
    · rw [Int.toNat_natCast, ← hdm]
      omega
    · rw [hsh, hz]
      omega
  · -- January and February: m = mp - 9, year shifted by one
    rw [if_neg (by omega : ¬ mp < 10)] at hc
    have hioc : civilFromDays z =
        (era * 400 + (yoe : Int) + (if mp - 9 ≤ 2 then 1 else 0),
          ((mp - 9 : Nat) : Int), (d : Int)) := by
      rw [hz, civilFromDays_eq era doe hdoe97, hc]
    rw [hioc]
    dsimp only
    have hpi : mp - 9 ≤ 2 := by omega
    have hsh := daysFromCivil_shift era yoe (mp - 9) d h4 (by omega) (by omega)
    rw [if_pos hpi, if_pos hpi, show mp - 9 + 9 = mp by omega] at hsh
    rw [if_pos hpi]
    have hdm := dimShifted_daysInMonth era yoe (mp - 9) h4 (by omega) (by omega)
    rw [if_pos hpi, if_pos hpi, show mp - 9 + 9 = mp by omega] at hdm
    refine ⟨by omega, by omega, by omega, ?_, ?_⟩
    · rw [Int.toNat_natCast, ← hdm]
      omega
    · rw [hsh, hz]
      omega

theorem civilFromDays_daysFromCivil (y : Int) (m d : Nat)
    (hm1 : 1 ≤ m) (hm2 : m ≤ 12) (hd1 : 1 ≤ d)
    (hd2 : (d : Int) ≤ daysInMonth y m) :
    civilFromDays (daysFromCivil y (m : Int) (d : Int)) = (y, (m : Int), (d : Int)) := by
  by_cases hmB : m ≤ 2
  · -- January and February: mp = m + 9
    set era := (y - 1) / 400 with herad
    have hyoeI : 0 ≤ y - 1 - era * 400 ∧ y - 1 - era * 400 < 400 := by omega
    set yoe := (y - 1 - era * 400).toNat with hyoed
    have hyoeC : (yoe : Int) = y - 1 - era * 400 := by omega
    have h4 : yoe < 400 := by omega
    have hyform : y = era * 400 + (yoe : Int) + (if m ≤ 2 then 1 else 0) := by
      rw [if_pos hmB]
      omega
    have hsh := daysFromCivil_shift era yoe m d h4 hm1 hm2
    rw [if_pos hmB, if_pos hmB] at hsh
    have hdm := dimShifted_daysInMonth era yoe m h4 hm1 hm2
    rw [if_pos hmB, if_pos hmB] at hdm
    have hdimb : d ≤ dimShiftedN yoe (m + 9) := by
      rw [hyform, if_pos hmB] at hd2
      omega
    have hmplt : m + 9 < 12 := by omega
    have hdlt := doy_lt_len yoe (m + 9) d hmplt hd1 hdimb
    have hdoe97 : yearStartN yoe + (monthStartN (m + 9) + (d - 1)) < 146097 := by
      have e3 := (yearStart_endpoints yoe h4).2.2
      omega
    have hzf : daysFromCivil y (m : Int) (d : Int) =
        era * 146097 + ((yearStartN yoe + (monthStartN (m + 9) + (d - 1)) : Nat) : Int)
          - 719468 := by
      rw [hyform, if_pos hmB, hsh]
      omega
    rw [hzf, civilFromDays_eq era _ hdoe97]
    have hco : civilOfDoe (yearStartN yoe + (monthStartN (m + 9) + (d - 1))) =
        (yoe, if m + 9 < 10 then m + 9 + 3 else m + 9 - 9, d) := by
      simp only [civilOfDoe]
      rw [yoeOfDoe_eq h4 (by omega) (by omega)]
      rw [show yearStartN yoe + (monthStartN (m + 9) + (d - 1)) - yearStartN yoe
            = monthStartN (m + 9) + (d - 1) by omega]
      have hmpl : d - 1 < mpLen (m + 9) := by
        have := dimShiftedN_le_mpLen yoe (m + 9)
        omega
      rw [mp_recover (m + 9) hmplt (d - 1) hmpl]
      simp only [Prod.mk.injEq, true_and, and_true]
      omega
    rw [hco]
    have hM : (if m + 9 < 10 then m + 9 + 3 else m + 9 - 9) = m := by
      rw [if_neg (by omega : ¬ m + 9 < 10)]
      omega
    rw [hM]
    dsimp only
    rw [if_pos hmB]
    simp only [Prod.mk.injEq, true_and, and_true]
    omega
  · -- March … December: mp = m - 3
    set era := y / 400 with herad
    have hyoeI : 0 ≤ y - era * 400 ∧ y - era * 400 < 400 := by omega
    set yoe := (y - era * 400).toNat with hyoed
    have hyoeC : (yoe : Int) = y - era * 400 := by omega
    have h4 : yoe < 400 := by omega
    have hyform : y = era * 400 + (yoe : Int) + (if m ≤ 2 then 1 else 0) := by
      rw [if_neg hmB]
      omega
    have hsh := daysFromCivil_shift era yoe m d h4 hm1 hm2
    rw [if_neg hmB, if_neg hmB] at hsh
    have hdm := dimShifted_daysInMonth era yoe m h4 hm1 hm2
    rw [if_neg hmB, if_neg hmB] at hdm
    have hdimb : d ≤ dimShiftedN yoe (m - 3) := by
      rw [hyform, if_neg hmB] at hd2
      omega
    have hmplt : m - 3 < 12 := by omega
    have hdlt := doy_lt_len yoe (m - 3) d hmplt hd1 hdimb
    have hdoe97 : yearStartN yoe + (monthStartN (m - 3) + (d - 1)) < 146097 := by
      have e3 := (yearStart_endpoints yoe h4).2.2
      omega
    have hzf : daysFromCivil y (m : Int) (d : Int) =
        era * 146097 + ((yearStartN yoe + (monthStartN (m - 3) + (d - 1)) : Nat) : Int)
          - 719468 := by
      rw [hyform, if_neg hmB, hsh]
      omega
    rw [hzf, civilFromDays_eq era _ hdoe97]
    have hco : civilOfDoe (yearStartN yoe + (monthStartN (m - 3) + (d - 1))) =
        (yoe, if m - 3 < 10 then m - 3 + 3 else m - 3 - 9, d) := by
      simp only [civilOfDoe]
      rw [yoeOfDoe_eq h4 (by omega) (by omega)]
      rw [show yearStartN yoe + (monthStartN (m - 3) + (d - 1)) - yearStartN yoe
            = monthStartN (m - 3) + (d - 1) by omega]
      have hmpl : d - 1 < mpLen (m - 3) := by
        have := dimShiftedN_le_mpLen yoe (m - 3)
        omega
      rw [mp_recover (m - 3) hmplt (d - 1) hmpl]
      simp only [Prod.mk.injEq, true_and, and_true]
      omega
    rw [hco]
    have hM : (if m - 3 < 10 then m - 3 + 3 else m - 3 - 9) = m := by
      rw [if_pos (by omega : m - 3 < 10)]
      omega
    rw [hM]
    dsimp only
    rw [if_neg hmB]
    simp only [Prod.mk.injEq, true_and, and_true]
    omega

theorem getters_valid (t : Int) :
    1 ≤ getMonth t + 1 ∧ getMonth t + 1 ≤ 12 ∧ 1 ≤ getDate t ∧
    getDate t ≤ daysInMonth (getFullYear t) (getMonth t + 1).toNat ∧
    daysFromCivil (getFullYear t) (getMonth t + 1) (getDate t) = jsDay t := by
  have h := civilFromDays_valid (jsDay t)
  unfold getFullYear getMonth getDate
  rw [show (civilFromDays (jsDay t)).2.1 - 1 + 1 = (civilFromDays (jsDay t)).2.1 by ring]
  exact h

theorem timeWithinDay_bounds (t : Int) : 0 ≤ timeWithinDay t ∧ timeWithinDay t < msPerDay := by
  unfold timeWithinDay msPerDay
  omega

theorem jsDay_canonical (day tod : Int) (h1 : 0 ≤ tod) (h2 : tod < msPerDay) :
    jsDay (day * msPerDay + tod) = day ∧ timeWithinDay (day * msPerDay + tod) = tod := by
  unfold jsDay timeWithinDay msPerDay at *
  constructor <;> omega

theorem zero_time_chain (t : Int) :
    setMillisecondsT (setSecondsT (setMinutesT (setHoursT t 0) 0) 0) 0 =
      jsDay t * msPerDay := by
  unfold setHoursT setMinutesT setSecondsT setMillisecondsT getHours getMinutes getSeconds
    getMilliseconds jsDay timeWithinDay msPerSecond msPerMinute msPerHour msPerDay
  omega

theorem makeDay_inrange (y : Int) (m : Nat) (hm1 : 1 ≤ m) (hm2 : m ≤ 12) (d : Int) :
    makeDay y ((m : Int) - 1) d = daysFromCivil y (m : Int) d := by
  unfold makeDay
  rw [show ((m : Int) - 1) / 12 = 0 by omega, show ((m : Int) - 1) % 12 = (m : Int) - 1 by omega]
  rw [show y + 0 = y by ring, show (m : Int) - 1 + 1 = (m : Int) by ring]

theorem getters_mk (y : Int) (m d : Nat) (tod : Int)
    (hm1 : 1 ≤ m) (hm2 : m ≤ 12) (hd1 : 1 ≤ d) (hd2 : (d : Int) ≤ daysInMonth y m)
    (ht1 : 0 ≤ tod) (ht2 : tod < msPerDay) :
    getFullYear (daysFromCivil y (m : Int) (d : Int) * msPerDay + tod) = y ∧
    getMonth (daysFromCivil y (m : Int) (d : Int) * msPerDay + tod) = (m : Int) - 1 ∧
    getDate (daysFromCivil y (m : Int) (d : Int) * msPerDay + tod) = (d : Int) ∧
    timeWithinDay (daysFromCivil y (m : Int) (d : Int) * msPerDay + tod) = tod ∧
    jsDay (daysFromCivil y (m : Int) (d : Int) * msPerDay + tod) =
      daysFromCivil y (m : Int) (d : Int) := by
  obtain ⟨hjd, htw⟩ := jsDay_canonical (daysFromCivil y (m : Int) (d : Int)) tod ht1 ht2
  have hciv := civilFromDays_daysFromCivil y m d hm1 hm2 hd1 hd2
  unfold getFullYear getMonth getDate
  rw [hjd, hciv]
  exact ⟨rfl, rfl, rfl, htw, rfl⟩

theorem set_date_chain (now : Int) (y : Int) (m d : Nat)
    (hm1 : 1 ≤ m) (hm12 : m ≤ 12) (hd : 1 ≤ d)
    (h1 : (d : Int) ≤ daysInMonth (getFullYear now) (getMonth now + 1).toNat)
    (h2 : (d : Int) ≤ daysInMonth y (getMonth now + 1).toNat)
    (h3 : (d : Int) ≤ daysInMonth y m) :
    setMillisecondsT (setSecondsT (setMinutesT (setHoursT
      (setMonthT (setFullYearT (setDateT now (d : Int)) y) ((m : Int) - 1)) 0) 0) 0) 0
      = dateValue y (m : Int) (d : Int) := by
  obtain ⟨g1, g2, g3, g4, g5⟩ := getters_valid now
  obtain ⟨ht1, ht2⟩ := timeWithinDay_bounds now
  set cm := (getMonth now + 1).toNat with hcmd
  have hcmC : ((cm : Nat) : Int) = getMonth now + 1 := by omega
  have hcm1 : 1 ≤ cm := by omega
  have hcm12 : cm ≤ 12 := by omega
  have hs1 : setDateT now (d : Int) =
      daysFromCivil (getFullYear now) (cm : Int) (d : Int) * msPerDay + timeWithinDay now := by
    unfold setDateT
    rw [show getMonth now = (cm : Int) - 1 by omega, makeDay_inrange _ cm hcm1 hcm12]
  obtain ⟨k1, k2, k3, k4, k5⟩ :=
    getters_mk (getFullYear now) cm d (timeWithinDay now) hcm1 hcm12 hd (by omega) ht1 ht2
  have hs2 : setFullYearT (setDateT now (d : Int)) y =
      daysFromCivil y (cm : Int) (d : Int) * msPerDay + timeWithinDay now := by
    unfold setFullYearT
    rw [hs1, k2, k3, k4, makeDay_inrange _ cm hcm1 hcm12]
  obtain ⟨l1, l2, l3, l4, l5⟩ :=
    getters_mk y cm d (timeWithinDay now) hcm1 hcm12 hd (by omega) ht1 ht2
  have hs3 : setMonthT (setFullYearT (setDateT now (d : Int)) y) ((m : Int) - 1) =
      daysFromCivil y (m : Int) (d : Int) * msPerDay + timeWithinDay now := by
    unfold setMonthT
    rw [hs2, l1, l3, l4, makeDay_inrange _ m hm1 hm12]
  obtain ⟨n1, n2, n3, n4, n5⟩ := getters_mk y m d (timeWithinDay now) hm1 hm12 hd h3 ht1 ht2
  rw [hs3, zero_time_chain, n5, dateValue]

/-! ## String and digit lemmas -/

theorem natDigitsAux_fuel : ∀ f f' n : Nat, n < f → n < f' →
    natDigitsAux f n = natDigitsAux f' n := by
  intro f
  induction f with
  | zero => omega
  | succ f ih =>
    intro f' n hf hf'
    match f', hf' with
    | f' + 1, hf' =>
      unfold natDigitsAux
      by_cases h : n < 10
      · simp [h]
      · simp only [if_neg h]
        rw [ih f' (n / 10) (by omega) (by omega)]

theorem natDigits_eq (n : Nat) : natDigits n =
    if n < 10 then [Char.ofNat (48 + n)]
    else natDigits (n / 10) ++ [Char.ofNat (48 + n % 10)] := by
  unfold natDigits
  rw [natDigitsAux]
  by_cases h : n < 10
  · simp [h]
  · simp only [if_neg h]
    rw [natDigitsAux_fuel n (n / 10 + 1) (n / 10) (by omega) (by omega)]

/-- Value of a most-significant-first digit list. -/
def digitsVal (ds : List Nat) : Nat := ds.foldl (fun a v => a * 10 + v) 0

theorem digit_char_facts : ∀ v < 10, (Char.ofNat (48 + v)).isDigit = true ∧
    (Char.ofNat (48 + v)).toNat = 48 + v ∧ Char.ofNat (48 + v) ≠ ' ' ∧
    Char.ofNat (48 + v) ≠ '-' ∧ Char.ofNat (48 + v) ≠ '+' := by decide

theorem natDigits_spec : ∀ n : Nat, ∃ ds : List Nat,
    natDigits n = ds.map (fun v => Char.ofNat (48 + v)) ∧ (∀ v ∈ ds, v < 10) ∧
    digitsVal ds = n ∧ ds ≠ [] := by
  intro n
  induction n using Nat.strong_induction_on with
  | _ n ih =>
    by_cases h : n < 10
    · exact ⟨[n], by simp [natDigits_eq, h], by simpa using h, by simp [digitsVal], by simp⟩
    · obtain ⟨ds, hmap, hlt, hval, hne⟩ := ih (n / 10) (by omega)
      refine ⟨ds ++ [n % 10], ?_, ?_, ?_, by simp⟩
      · rw [natDigits_eq, if_neg h, hmap]
        simp
      · intro v hv
        rcases List.mem_append.mp hv with h' | h'
        · exact hlt v h'
        · simp at h'
          omega
      · unfold digitsVal at hval ⊢
        rw [List.foldl_append]
        simp [hval]
        omega

theorem takeWhile_all {α : Type} {p : α → Bool} :
    ∀ l : List α, (∀ a ∈ l, p a = true) → l.takeWhile p = l := by
  intro l h
  induction l with
  | nil => rfl
  | cons a l ih =>
    rw [List.takeWhile_cons, h a (by simp)]
    simp [ih fun b hb => h b (by simp [hb])]

theorem dropWhile_none {α : Type} {p : α → Bool} :
    ∀ l : List α, (∀ a ∈ l, p a = false) → l.dropWhile p = l := by
  intro l h
  cases l with
  | nil => rfl
  | cons a l =>
    rw [List.dropWhile_cons, h a (by simp)]
    simp

theorem foldl_digit_chars (ds : List Nat) (h : ∀ v ∈ ds, v < 10) : ∀ a : Nat,
    (ds.map (fun v => Char.ofNat (48 + v))).foldl (fun a c => a * 10 + (c.toNat - 48)) a
      = ds.foldl (fun a v => a * 10 + v) a := by
  induction ds with
  | nil => intro a; rfl
  | cons v vs ih =>
    intro a
    simp only [List.map_cons, List.foldl_cons]
    rw [(digit_char_facts v (h v (by simp))).2.1]
    rw [ih fun w hw => h w (by simp [hw])]
    norm_num

theorem leadDigits_map (ds : List Nat) (h : ∀ v ∈ ds, v < 10) (hne : ds ≠ []) :
    leadDigits (ds.map (fun v => Char.ofNat (48 + v))) = some (digitsVal ds) := by
  simp only [leadDigits]
  rw [takeWhile_all _ fun c hc => ?_]
  · have : (ds.map (fun v => Char.ofNat (48 + v))).isEmpty = false := by
      cases ds with
      | nil => exact absurd rfl hne
      | cons v vs => rfl
    rw [this]
    simp only [Bool.false_eq_true, if_false]
    rw [foldl_digit_chars ds h 0]
    rfl
  · obtain ⟨v, hv, rfl⟩ := List.mem_map.mp hc
    exact (digit_char_facts v (h v hv)).1

theorem parseIntOpt_digits (ds : List Nat) (h : ∀ v ∈ ds, v < 10) (hne : ds ≠ []) :
    parseIntOpt ⟨ds.map (fun v => Char.ofNat (48 + v))⟩ = some ((digitsVal ds : Nat) : Int) := by
  match ds, hne with
  | v :: vs, _ =>
    have hv := h v (by simp)
    unfold parseIntOpt
    simp only [List.map_cons]
    rw [List.dropWhile_cons_of_neg (by simpa using (digit_char_facts v hv).2.2.1)]
    simp only [if_neg (digit_char_facts v hv).2.2.2.1, if_neg (digit_char_facts v hv).2.2.2.2]
    rw [show (Char.ofNat (48 + v) :: vs.map (fun w => Char.ofNat (48 + w)))
          = (v :: vs).map (fun w => Char.ofNat (48 + w)) by simp]
    rw [leadDigits_map (v :: vs) h (by simp)]
    rfl

theorem natDigits_len1 (n : Nat) (h : n < 10) : natDigits n = [Char.ofNat (48 + n)] := by
  rw [natDigits_eq, if_pos h]

theorem natDigits_len2 (n : Nat) (h1 : 10 ≤ n) (h2 : n < 100) :
    natDigits n = [Char.ofNat (48 + n / 10), Char.ofNat (48 + n % 10)] := by
  rw [natDigits_eq, if_neg (by omega), natDigits_len1 (n / 10) (by omega)]
  rfl

theorem natDigits_len3 (n : Nat) (h1 : 100 ≤ n) (h2 : n < 1000) :
    natDigits n = [Char.ofNat (48 + n / 100), Char.ofNat (48 + n / 10 % 10),
      Char.ofNat (48 + n % 10)] := by
  rw [natDigits_eq, if_neg (by omega), natDigits_len2 (n / 10) (by omega) (by omega)]
  rw [show n / 10 / 10 = n / 100 by omega]
  rfl

theorem natDigits_len4 (n : Nat) (h1 : 1000 ≤ n) (h2 : n < 10000) :
    natDigits n = [Char.ofNat (48 + n / 1000), Char.ofNat (48 + n / 100 % 10),
      Char.ofNat (48 + n / 10 % 10), Char.ofNat (48 + n % 10)] := by
  rw [natDigits_eq, if_neg (by omega), natDigits_len3 (n / 10) (by omega) (by omega)]
  rw [show n / 10 / 100 = n / 1000 by omega, show n / 10 / 10 % 10 = n / 100 % 10 by omega]
  rfl

theorem parse_spaces_digits (k : Nat) (ds : List Nat) (h : ∀ v ∈ ds, v < 10) :
    parseIntOpt (jsTrim ⟨List.replicate k ' ' ++ ds.map (fun v => Char.ofNat (48 + v))⟩) =
      if ds.isEmpty then none else some ((digitsVal ds : Nat) : Int) := by
  unfold jsTrim
  have h1 : (List.replicate k ' ' ++ ds.map (fun v => Char.ofNat (48 + v))).dropWhile (· = ' ')
      = (ds.map (fun v => Char.ofNat (48 + v))).dropWhile (· = ' ') := by
    induction k with
    | zero => simp
    | succ k ih => simpa [List.replicate_succ] using ih
  have hnosp : ∀ c ∈ ds.map (fun v => Char.ofNat (48 + v)), (decide (c = ' ')) = false := by
    intro c hc
    obtain ⟨v, hv, rfl⟩ := List.mem_map.mp hc
    simpa using (digit_char_facts v (h v hv)).2.2.1
  have h2 : (ds.map (fun v => Char.ofNat (48 + v))).dropWhile (· = ' ')
      = ds.map (fun v => Char.ofNat (48 + v)) := dropWhile_none _ hnosp
  have h3 : (ds.map (fun v => Char.ofNat (48 + v))).reverse.dropWhile (· = ' ')
      = (ds.map (fun v => Char.ofNat (48 + v))).reverse := by
    apply dropWhile_none
    intro c hc
    exact hnosp c (List.mem_reverse.mp hc)
  rw [h1, h2, h3, List.reverse_reverse]
  cases hds : ds with
  | nil => rfl
  | cons v vs =>
    rw [if_neg (by simp)]
    exact parseIntOpt_digits (v :: vs) (hds ▸ h) (by simp)

theorem data_mk (l : List Char) : (String.mk l).data = l := rfl

theorem parseUntisTime_spec (n : Nat) (h : n < 10000) :
    parseUntisTime n =
      { hour := if 100 ≤ n then some ((n / 100 : Nat) : Int) else none,
        minute := some ((n % 100 : Nat) : Int) } := by
  simp only [parseUntisTime, jsToString, padStart, strSlice]
  rcases Nat.lt_or_ge n 10 with hb | hb'
  · rw [natDigits_len1 n hb]
    have e1 : (List.replicate (4 - (String.mk [Char.ofNat (48 + n)]).length) ' '
        ++ [Char.ofNat (48 + n)]) = [' ', ' ', ' ', Char.ofNat (48 + n)] := rfl
    rw [e1]
    have e2 : (([' ', ' ', ' ', Char.ofNat (48 + n)].drop 0).take (2 - 0))
        = List.replicate 2 ' ' ++ ([] : List Nat).map (fun v => Char.ofNat (48 + v)) := rfl
    have e3 : (([' ', ' ', ' ', Char.ofNat (48 + n)].drop 2).take (4 - 2))
        = List.replicate 1 ' ' ++ [n].map (fun v => Char.ofNat (48 + v)) := rfl
    rw [e2, e3, parse_spaces_digits 2 [] (by simp), parse_spaces_digits 1 [n] (by simpa)]
    simp only [List.isEmpty_nil, if_pos rfl, List.isEmpty_cons, Bool.false_eq_true, if_false]
    rw [if_neg (show ¬ 100 ≤ n by omega)]
    simp [digitsVal]
    omega
  · rcases Nat.lt_or_ge n 100 with hb2 | hb2'
    · rw [natDigits_len2 n hb' hb2]
      have e1 : (List.replicate
            (4 - (String.mk [Char.ofNat (48 + n / 10), Char.ofNat (48 + n % 10)]).length) ' '
          ++ [Char.ofNat (48 + n / 10), Char.ofNat (48 + n % 10)])
          = [' ', ' ', Char.ofNat (48 + n / 10), Char.ofNat (48 + n % 10)] := rfl
      rw [e1]
      have e2 : (([' ', ' ', Char.ofNat (48 + n / 10), Char.ofNat (48 + n % 10)].drop 0).take (2 - 0))
          = List.replicate 2 ' ' ++ ([] : List Nat).map (fun v => Char.ofNat (48 + v)) := rfl
      have e3 : (([' ', ' ', Char.ofNat (48 + n / 10), Char.ofNat (48 + n % 10)].drop 2).take (4 - 2))
          = List.replicate 0 ' ' ++ [n / 10, n % 10].map (fun v => Char.ofNat (48 + v)) := rfl
      rw [e2, e3, parse_spaces_digits 2 [] (by simp),
        parse_spaces_digits 0 [n / 10, n % 10] (by intro v hv; simp at hv; omega)]
      simp only [List.isEmpty_nil, if_pos rfl, List.isEmpty_cons, Bool.false_eq_true, if_false]
      rw [if_neg (show ¬ 100 ≤ n by omega)]
      simp [digitsVal]
      omega
    · rcases Nat.lt_or_ge n 1000 with hb3 | hb3'
      · rw [natDigits_len3 n hb2' hb3]
        have e1 : (List.replicate (4 - (String.mk [Char.ofNat (48 + n / 100),
              Char.ofNat (48 + n / 10 % 10), Char.ofNat (48 + n % 10)]).length) ' '
            ++ [Char.ofNat (48 + n / 100), Char.ofNat (48 + n / 10 % 10), Char.ofNat (48 + n % 10)])
            = [' ', Char.ofNat (48 + n / 100), Char.ofNat (48 + n / 10 % 10),
                Char.ofNat (48 + n % 10)] := rfl
        rw [e1]
        have e2 : (([' ', Char.ofNat (48 + n / 100), Char.ofNat (48 + n / 10 % 10),
              Char.ofNat (48 + n % 10)].drop 0).take (2 - 0))
            = List.replicate 1 ' ' ++ [n / 100].map (fun v => Char.ofNat (48 + v)) := rfl
        have e3 : (([' ', Char.ofNat (48 + n / 100), Char.ofNat (48 + n / 10 % 10),
              Char.ofNat (48 + n % 10)].drop 2).take (4 - 2))
            = List.replicate 0 ' ' ++ [n / 10 % 10, n % 10].map (fun v => Char.ofNat (48 + v)) := rfl
        rw [e2, e3, parse_spaces_digits 1 [n / 100] (by intro v hv; simp at hv; omega),
          parse_spaces_digits 0 [n / 10 % 10, n % 10] (by intro v hv; simp at hv; omega)]
        simp only [List.isEmpty_cons, Bool.false_eq_true, if_false]
        rw [if_pos (show 100 ≤ n by omega)]
        simp [digitsVal]
        omega
      · rw [natDigits_len4 n hb3' h]
        have e1 : (List.replicate (4 - (String.mk [Char.ofNat (48 + n / 1000),
              Char.ofNat (48 + n / 100 % 10), Char.ofNat (48 + n / 10 % 10),
              Char.ofNat (48 + n % 10)]).length) ' '
            ++ [Char.ofNat (48 + n / 1000), Char.ofNat (48 + n / 100 % 10),
                Char.ofNat (48 + n / 10 % 10), Char.ofNat (48 + n % 10)])
            = [Char.ofNat (48 + n / 1000), Char.ofNat (48 + n / 100 % 10),
                Char.ofNat (48 + n / 10 % 10), Char.ofNat (48 + n % 10)] := rfl
        rw [e1]
        have e2 : (([Char.ofNat (48 + n / 1000), Char.ofNat (48 + n / 100 % 10),
              Char.ofNat (48 + n / 10 % 10), Char.ofNat (48 + n % 10)].drop 0).take (2 - 0))
            = List.replicate 0 ' ' ++ [n / 1000, n / 100 % 10].map (fun v => Char.ofNat (48 + v)) := rfl
        have e3 : (([Char.ofNat (48 + n / 1000), Char.ofNat (48 + n / 100 % 10),
              Char.ofNat (48 + n / 10 % 10), Char.ofNat (48 + n % 10)].drop 2).take (4 - 2))
            = List.replicate 0 ' ' ++ [n / 10 % 10, n % 10].map (fun v => Char.ofNat (48 + v)) := rfl
        rw [e2, e3, parse_spaces_digits 0 [n / 1000, n / 100 % 10] (by intro v hv; simp at hv; omega),
          parse_spaces_digits 0 [n / 10 % 10, n % 10] (by intro v hv; simp at hv; omega)]
        simp only [List.isEmpty_cons, Bool.false_eq_true, if_false]
        rw [if_pos (show 100 ≤ n by omega)]
        simp [digitsVal]
        omega

theorem daysInMonth_ge28 (y : Int) (m : Nat) : 28 ≤ daysInMonth y m := by
  unfold daysInMonth
  split
  · split <;> omega
  · split <;> omega

theorem daysInMonth_le31 (y : Int) (m : Nat) : daysInMonth y m ≤ 31 := by
  unfold daysInMonth
  split
  · split <;> omega
  · split <;> omega

theorem parseUntisDate_components (now : Int) (s : String) (y m d : Nat)
    (hy : parseIntOpt (strSlice s 0 4) = some ((y : Nat) : Int))
    (hm : parseIntOpt (strSlice s 4 6) = some ((m : Nat) : Int))
    (hd : parseIntOpt (strSlice s 6 8) = some ((d : Nat) : Int))
    (hm1 : 1 ≤ m) (hm12 : m ≤ 12) (hd1 : 1 ≤ d)
    (h1 : (d : Int) ≤ daysInMonth (getFullYear now) (getMonth now + 1).toNat)
    (h2 : (d : Int) ≤ daysInMonth (y : Int) (getMonth now + 1).toNat)
    (h3 : (d : Int) ≤ daysInMonth (y : Int) m) :
    parseUntisDate now s = some (dateValue (y : Int) (m : Int) (d : Int)) := by
  simp only [parseUntisDate]
  rw [hy, hm, hd]
  simp only [Option.map_some', setDateO, setFullYearO, setMonthO, setHoursO, setMinutesO,
    setSecondsO, setMillisecondsO, Option.getD_some]
  rw [set_date_chain now (y : Int) m d hm1 hm12 hd1 h1 h2 h3]

theorem intToString_nat (n : Nat) : intToString ((n : Nat) : Int) = ⟨natDigits n⟩ := by
  unfold intToString
  rw [if_neg (by omega : ¬ ((n : Nat) : Int) < 0), Int.toNat_natCast]

theorem pad2_digits (n : Nat) (h : n < 100) :
    padStart (String.mk (natDigits n)) 2 '0' =
      ⟨(if n < 10 then [0, n] else [n / 10, n % 10]).map (fun v => Char.ofNat (48 + v))⟩ := by
  by_cases h10 : n < 10
  · rw [natDigits_len1 n h10, if_pos h10]
    rfl
  · rw [natDigits_len2 n (by omega) h, if_neg h10]
    rfl

theorem parse_pad2 (n : Nat) (h : n < 100) :
    parseIntOpt ⟨(if n < 10 then [0, n] else [n / 10, n % 10]).map
        (fun v => Char.ofNat (48 + v))⟩ = some ((n : Nat) : Int) := by
  by_cases h10 : n < 10
  · rw [if_pos h10, parseIntOpt_digits [0, n] (by intro v hv; simp at hv; omega) (by simp)]
    simp [digitsVal]
  · rw [if_neg h10,
      parseIntOpt_digits [n / 10, n % 10] (by intro v hv; simp at hv; omega) (by simp)]
    simp only [digitsVal, List.foldl_cons, List.foldl_nil, Option.some.injEq]
    omega

theorem parse_year4 (y : Nat) (h1 : 1000 ≤ y) (h2 : y ≤ 9999) :
    parseIntOpt ⟨[y / 1000, y / 100 % 10, y / 10 % 10, y % 10].map
        (fun v => Char.ofNat (48 + v))⟩ = some ((y : Nat) : Int) := by
  rw [parseIntOpt_digits [y / 1000, y / 100 % 10, y / 10 % 10, y % 10]
      (by intro v hv; simp at hv; omega) (by simp)]
  simp only [digitsVal, List.foldl_cons, List.foldl_nil, Option.some.injEq]
  omega

theorem slice_4_2_2 (A B C : List Char) (hA : A.length = 4) (hB : B.length = 2)
    (hC : C.length = 2) :
    strSlice ⟨A ++ (B ++ C)⟩ 0 4 = ⟨A⟩ ∧ strSlice ⟨A ++ (B ++ C)⟩ 4 6 = ⟨B⟩ ∧
    strSlice ⟨A ++ (B ++ C)⟩ 6 8 = ⟨C⟩ := by
  unfold strSlice
  refine ⟨?_, ?_, ?_⟩
  · congr 1
    simp only [data_mk, List.drop_zero, Nat.sub_zero]
    exact List.take_left' hA
  · congr 1
    simp only [data_mk]
    rw [List.drop_left' hA, show (6 : Nat) - 4 = 2 from rfl]
    exact List.take_left' hB
  · congr 1
    simp only [data_mk]
    rw [← List.append_assoc, List.drop_left' (by simp [hA, hB]),
      show (8 : Nat) - 6 = 2 from rfl, show (2 : Nat) = C.length from hC.symm, List.take_length]

theorem mk_append (l1 l2 : List Char) : String.mk l1 ++ String.mk l2 = String.mk (l1 ++ l2) := rfl

theorem dateToUntisDate_data (y m d : Nat) (hy1 : 1000 ≤ y) (hy2 : y ≤ 9999)
    (hm1 : 1 ≤ m) (hm2 : m ≤ 12) (hd1 : 1 ≤ d) (hd2 : (d : Int) ≤ daysInMonth (y : Int) m) :
    dateToUntisDate (dateValue (y : Int) (m : Int) (d : Int)) "" =
      ⟨[y / 1000, y / 100 % 10, y / 10 % 10, y % 10].map (fun v => Char.ofNat (48 + v)) ++
        ((if m < 10 then [0, m] else [m / 10, m % 10]).map (fun v => Char.ofNat (48 + v)) ++
          (if d < 10 then [0, d] else [d / 10, d % 10]).map (fun v => Char.ofNat (48 + v)))⟩ := by
  obtain ⟨k1, k2, k3, _, _⟩ := getters_mk y m d 0 hm1 hm2 hd1 hd2 (le_refl 0)
    (by unfold msPerDay; omega)
  have hval : dateValue (y : Int) (m : Int) (d : Int) =
      daysFromCivil (y : Int) (m : Int) (d : Int) * msPerDay + 0 := by
    unfold dateValue
    ring
  simp only [dateToUntisDate, hval, k1, k2, k3]
  rw [show (m : Int) - 1 + 1 = ((m : Nat) : Int) by ring]
  rw [intToString_nat y, intToString_nat m, intToString_nat d]
  rw [pad2_digits m (by omega), pad2_digits d (by have := daysInMonth_le31 (y : Int) m; omega)]
  rw [natDigits_len4 y hy1 (by omega)]
  rw [show ("" : String) = String.mk [] from rfl]
  rw [mk_append, mk_append, mk_append, mk_append]
  congr 1
  simp

theorem roundtrip_general (now : Int) (y m d : Nat)
    (hy1 : 1000 ≤ y) (hy2 : y ≤ 9999) (hm1 : 1 ≤ m) (hm2 : m ≤ 12) (hd1 : 1 ≤ d)
    (hd2 : (d : Int) ≤ daysInMonth (y : Int) m)
    (h1 : (d : Int) ≤ daysInMonth (getFullYear now) (getMonth now + 1).toNat)
    (h2 : (d : Int) ≤ daysInMonth (y : Int) (getMonth now + 1).toNat) :
    parseUntisDate now (dateToUntisDate (dateValue (y : Int) (m : Int) (d : Int)) "") =
      some (dateValue (y : Int) (m : Int) (d : Int)) := by
  rw [dateToUntisDate_data y m d hy1 hy2 hm1 hm2 hd1 hd2]
  set A := [y / 1000, y / 100 % 10, y / 10 % 10, y % 10].map (fun v => Char.ofNat (48 + v))
    with hAd
  set B := (if m < 10 then [0, m] else [m / 10, m % 10]).map (fun v => Char.ofNat (48 + v))
    with hBd
  set C := (if d < 10 then [0, d] else [d / 10, d % 10]).map (fun v => Char.ofNat (48 + v))
    with hCd
  have hA : A.length = 4 := by simp [hAd]
  have hB : B.length = 2 := by rw [hBd]; split <;> simp
  have hC : C.length = 2 := by rw [hCd]; split <;> simp
  obtain ⟨s1, s2, s3⟩ := slice_4_2_2 A B C hA hB hC
  exact parseUntisDate_components now _ y m d
    (by rw [s1, hAd]; exact parse_year4 y hy1 hy2)
    (by rw [s2, hBd]; exact parse_pad2 m (by omega))
    (by rw [s3, hCd]; exact parse_pad2 d (by have := daysInMonth_le31 (y : Int) m; omega))
    hm1 hm2 hd1 h1 h2 hd2

theorem parse_20230914 (now : Int) :
    parseUntisDateNum now 20230914 = some (dateValue 2023 9 14) := by
  unfold parseUntisDateNum
  have h := parseUntisDate_components now (jsToString 20230914) 2023 9 14
    (by decide) (by decide) (by decide) (by omega) (by omega) (by omega)
    (by have := daysInMonth_ge28 (getFullYear now) (getMonth now + 1).toNat; omega)
    (by have := daysInMonth_ge28 ((2023 : Nat) : Int) (getMonth now + 1).toNat; omega)
    (by decide)
  simpa using h

/-! ## Sorting lemmas -/

theorem mem_jsSortInsert {α : Type} (le : α → α → Bool) (a x : α) :
    ∀ l : List α, x ∈ jsSortInsert le a l ↔ x = a ∨ x ∈ l := by
  intro l
  induction l with
  | nil => simp [jsSortInsert]
  | cons b l ih =>
    unfold jsSortInsert
    split
    · simp
    · simp only [List.mem_cons, ih]
      tauto

theorem mem_jsStableSort {α : Type} (le : α → α → Bool) (x : α) :
    ∀ l : List α, x ∈ jsStableSort le l ↔ x ∈ l := by
  intro l
  induction l with
  | nil => simp [jsStableSort]
  | cons a l ih =>
    unfold jsStableSort
    rw [mem_jsSortInsert]
    simp [ih]

theorem pairwise_jsSortInsert {α : Type} (le : α → α → Bool) (a : α) :
    ∀ l : List α, List.Pairwise (fun x y => le x y = true) l →
    (∀ b ∈ l, le a b = true ∨ le b a = true) →
    (∀ b ∈ l, ∀ c ∈ l, le a b = true → le b c = true → le a c = true) →
    List.Pairwise (fun x y => le x y = true) (jsSortInsert le a l) := by
  intro l
  induction l with
  | nil => simp [jsSortInsert]
  | cons b l ih =>
    intro hp htot htr
    unfold jsSortInsert
    split
    · -- le a b: a goes first; a ≤ b, and a ≤ c for all c in l by transitivity through b
      rename_i hab
      refine List.Pairwise.cons ?_ hp
      intro c hc
      rcases List.mem_cons.mp hc with rfl | hc'
      · exact hab
      · exact htr b (by simp) c (by simp [hc']) hab ((List.pairwise_cons.mp hp).1 c hc')
    · -- b stays first; insert a into l
      rename_i hab
      have hba : le b a = true := by
        rcases htot b (by simp) with h | h
        · exact absurd h hab
        · exact h
      obtain ⟨hb, hl⟩ := List.pairwise_cons.mp hp
      refine List.Pairwise.cons ?_ ?_
      · intro c hc
        rcases (mem_jsSortInsert le a c l).mp hc with rfl | hc'
        · exact hba
        · exact hb c hc'
      · exact ih hl (fun c hc => htot c (by simp [hc]))
          (fun c hc e he => htr c (by simp [hc]) e (by simp [he]))

theorem pairwise_jsStableSort {α : Type} (le : α → α → Bool) :
    ∀ l : List α, (∀ a ∈ l, ∀ b ∈ l, le a b = true ∨ le b a = true) →
    (∀ a ∈ l, ∀ b ∈ l, ∀ c ∈ l, le a b = true → le b c = true → le a c = true) →
    List.Pairwise (fun x y => le x y = true) (jsStableSort le l) := by
  intro l
  induction l with
  | nil => intro _ _; simp [jsStableSort]
  | cons a l ih =>
    intro htot htr
    unfold jsStableSort
    have hmem : ∀ x ∈ jsStableSort le l, x ∈ l := fun x hx => (mem_jsStableSort le x l).mp hx
    refine pairwise_jsSortInsert le a (jsStableSort le l)
      (ih (fun x hx y hy => htot x (by simp [hx]) y (by simp [hy]))
          (fun x hx y hy z hz => htr x (by simp [hx]) y (by simp [hy]) z (by simp [hz])))
      (fun b hb => htot a (by simp) b (by simp [hmem b hb]))
      (fun b hb c hc => htr a (by simp) b (by simp [hmem b hb]) c (by simp [hmem c hc]))

theorem filter_jsSortInsert_pos {α : Type} (le : α → α → Bool) (p : α → Bool) (a : α)
    (hpa : p a = true) :
    ∀ l : List α, (∀ b ∈ l, p b = true → le a b = true) →
    (jsSortInsert le a l).filter p = a :: l.filter p := by
  intro l
  induction l with
  | nil => simp [jsSortInsert, hpa]
  | cons b l ih =>
    intro h
    unfold jsSortInsert
    split
    · simp [List.filter, hpa]
    · rename_i hab
      have hpb : p b = false := by
        rcases hpb : p b with hf | ht
        · rfl
        · exact absurd (h b (by simp) hpb) hab
      rw [List.filter_cons_of_neg (by simp [hpb]), List.filter_cons_of_neg (by simp [hpb])]
      exact ih fun c hc hpc => h c (by simp [hc]) hpc

theorem filter_jsSortInsert_neg {α : Type} (le : α → α → Bool) (p : α → Bool) (a : α)
    (hpa : p a = false) :
    ∀ l : List α, (jsSortInsert le a l).filter p = l.filter p := by
  intro l
  induction l with
  | nil => simp [jsSortInsert, hpa]
  | cons b l ih =>
    unfold jsSortInsert
    split
    · simp [List.filter, hpa]
    · rcases hpb : p b with hf | ht
      · rw [List.filter_cons_of_neg (by simp [hpb]), List.filter_cons_of_neg (by simp [hpb])]
        exact ih
      · rw [List.filter_cons_of_pos (by simp [hpb]), List.filter_cons_of_pos (by simp [hpb])]
        rw [ih]

theorem filter_jsStableSort {α : Type} (le : α → α → Bool) (p : α → Bool) :
    ∀ l : List α, (∀ a ∈ l, ∀ b ∈ l, p a = true → p b = true → le a b = true) →
    (jsStableSort le l).filter p = l.filter p := by
  intro l
  induction l with
  | nil => intro _; rfl
  | cons a l ih =>
    intro htie
    unfold jsStableSort
    rcases hpa : p a with hf | ht
    · rw [filter_jsSortInsert_neg le p a hpa, List.filter_cons_of_neg (by simp [hpa])]
      exact ih fun x hx y hy => htie x (by simp [hx]) y (by simp [hy])
    · rw [filter_jsSortInsert_pos le p a hpa _ (fun b hb hpb =>
        htie a (by simp) b (by simp [(mem_jsStableSort le b l).mp hb]) hpa hpb)]
      rw [List.filter_cons_of_pos (by simp [hpa])]
      rw [ih fun x hx y hy => htie x (by simp [hx]) y (by simp [hy])]

/-! ## Normalizer lemmas -/

theorem resolvePeriods_ok (now : Int) (elems : List RawElement) :
    ∀ ps l, resolvePeriods now elems ps = .ok l →
      ∀ p ∈ ps, ∃ e, resolvePeriod now elems p = .ok e := by
  intro ps
  induction ps with
  | nil =>
    intro l _ p hp
    simp at hp
  | cons q ps ih =>
    intro l h p hp
    unfold resolvePeriods at h
    rcases hq : resolvePeriod now elems q with e | entry
    · rw [hq] at h
      simp at h
    · rw [hq] at h
      rcases hr : resolvePeriods now elems ps with e' | rest
      · rw [hr] at h
        simp at h
      · rcases List.mem_cons.mp hp with rfl | hp'
        · exact ⟨entry, hq⟩
        · exact ih rest hr p hp'

theorem normalizeTimetable_ok (now : Int) (elems : List RawElement) (ps : List RawPeriod)
    (out : List TimetableEntry) (h : normalizeTimetable now elems ps = .ok out) :
    ∃ resolved, resolvePeriods now elems ps = .ok resolved ∧ out = sortPeriods resolved := by
  unfold normalizeTimetable at h
  rcases hr : resolvePeriods now elems ps with e | resolved
  · rw [hr] at h
    simp [Except.map] at h
  · rw [hr] at h
    simp [Except.map] at h
    exact ⟨resolved, rfl, h.symm⟩

theorem resolvePeriod_crash (now : Int) (elems : List RawElement) (p : RawPeriod)
    (hbad : (p.elements.filter (fun e => e.type = 3)).head? = none ∨
      ∃ r, (p.elements.filter (fun e => e.type = 3)).head? = some r ∧
        (buildTypeIndex elems 3).bind (fun idx => idx.lookup r.id) = none) :
    resolvePeriod now elems p = .error .crashUndefined := by
  unfold resolvePeriod
  rcases hbad with h | ⟨r, hr, hl⟩
  · rw [h]
  · rw [hr]
    rcases hb : buildTypeIndex elems 3 with _ | idx
    · rfl
    · rw [hb, Option.some_bind] at hl
      simp only []
      rw [hl]

theorem normalizeTimetable_crash (now : Int) (elems : List RawElement) (ps : List RawPeriod)
    (p : RawPeriod) (hp : p ∈ ps)
    (hcrash : resolvePeriod now elems p = .error .crashUndefined) :
    ∃ e, normalizeTimetable now elems ps = .error e := by
  rcases hn : normalizeTimetable now elems ps with e | out
  · exact ⟨e, rfl⟩
  · obtain ⟨resolved, hres, _⟩ := normalizeTimetable_ok now elems ps out hn
    obtain ⟨en, hen⟩ := resolvePeriods_ok now elems ps resolved hres p hp
    rw [hcrash] at hen
    exact absurd hen (by simp)

/-! ## Comparator lemmas -/

theorem jsCmp_total (a b : Option Int) : jsCmp a b ≤ 0 ∨ jsCmp b a ≤ 0 := by
  unfold jsCmp
  rcases a with _ | x <;> rcases b with _ | y <;> simp <;> omega

/-! ## Concrete fixtures used by the claim theorems and their witnesses -/

/-- A raw period with no type-3 element reference at all. -/
def periodNoSubject : RawPeriod := ⟨20230911, 800, 845, [], ⟨none⟩⟩

/-- A raw period whose only type-3 reference has an id that no entity carries. -/
def periodDanglingSubject : RawPeriod := ⟨20230911, 800, 845, [⟨3, 77⟩], ⟨none⟩⟩

/-- The single subject entity of the example payloads. -/
def elemsMath : List RawElement := [⟨3, 9, "Math"⟩]

/-- A period starting 09:00 (the latest of the three example periods). -/
def periodLate : RawPeriod := ⟨20230911, 900, 945, [⟨3, 9⟩], ⟨some false⟩⟩

/-- A period starting 08:00, earlier in the payload than `periodTiedB`. -/
def periodTiedA : RawPeriod := ⟨20230911, 800, 845, [⟨3, 9⟩], ⟨none⟩⟩

/-- A period with the same start instant as `periodTiedA`, later in the payload
(distinguishable by its `cancelled` flag). -/
def periodTiedB : RawPeriod := ⟨20230911, 800, 845, [⟨3, 9⟩], ⟨some true⟩⟩

/-- An authenticated client fixture. -/
def clientAuth : Client := ⟨"borglinz", some 1, some "sessiontoken"⟩

/-- An unauthenticated client fixture (fresh from the constructor). -/
def clientFresh : Client := ⟨"borglinz", none, none⟩

/-! ## Claims -/

/-- Claim C1, counterexample.  The claim says a period with no type-3 reference
makes `getTimetableWeek` fail with a deliberate `MissingReferenceError`.  In
fact the code reads `.id` of `undefined` and crashes with a `TypeError`: at
this concrete payload the operation surfaces the undefined-access crash
(`jsCrash`), and the per-period resolution yields `crashUndefined`, not
`missingReference`. -/
theorem c1_counterexample :
    (getTimetableWeek 0 clientAuth (some 0)
        (.ok ⟨some ⟨some ⟨some ⟨some [], [1], [(1, [periodNoSubject])]⟩⟩⟩⟩)).1
      = .error .jsCrash ∧
    resolvePeriod 0 [] periodNoSubject = .error NormError.crashUndefined ∧
    NormError.crashUndefined ≠ NormError.missingReference := by
  refine ⟨rfl, rfl, by decide⟩

/-- Claim C1, amended.  For every raw period in the payload whose element
references contain no type-3 entry, or whose first type-3 reference has an id
absent from the entity index, `getTimetableWeek` fails with a `TypeError`
crash from an undefined property access (`jsCrash`) — the implementation has
no surfaced `MissingReferenceError`. -/
theorem c1_missing_subject_crashes (now : Int) (c : Client) (sess : String) (date : Int)
    (elems : List RawElement) (ids : List Int) (eps : List (Int × List RawPeriod))
    (ps : List RawPeriod) (p : RawPeriod) (eid : Int)
    (hsess : c.sessionId = some sess)
    (hids : ids.head? = some eid) (heps : eps.lookup eid = some ps)
    (hp : p ∈ ps)
    (hbad : (p.elements.filter (fun e => e.type = 3)).head? = none ∨
      ∃ r, (p.elements.filter (fun e => e.type = 3)).head? = some r ∧
        (buildTypeIndex elems 3).bind (fun idx => idx.lookup r.id) = none) :
    (getTimetableWeek now c (some date) (.ok ⟨some ⟨some ⟨some ⟨some elems, ids, eps⟩⟩⟩⟩)).1
      = .error .jsCrash := by
  have hcrash := resolvePeriod_crash now elems p hbad
  obtain ⟨e, he⟩ := normalizeTimetable_crash now elems ps p hp hcrash
  unfold getTimetableWeek
  rw [hsess]
  simp only [Option.isNone_some, Bool.false_eq_true, if_false]
  rw [hids]
  simp only []
  rw [heps]
  simp only []
  rw [he]

/-- Claim C1 witness: the amended theorem applied to a concrete payload with a
dangling subject reference. -/
theorem c1_witness :
    clientAuth.sessionId = some "sessiontoken" ∧
    (getTimetableWeek 0 clientAuth (some 0)
        (.ok ⟨some ⟨some ⟨some ⟨some elemsMath, [1], [(1, [periodDanglingSubject])]⟩⟩⟩⟩)).1
      = .error .jsCrash :=
  ⟨rfl, c1_missing_subject_crashes 0 clientAuth "sessiontoken" 0 elemsMath [1]
    [(1, [periodDanglingSubject])] [periodDanglingSubject] periodDanglingSubject 1
    rfl rfl rfl (by decide)
    (Or.inr ⟨⟨3, 77⟩, by decide, by decide⟩)⟩

/-- Claim C2, counterexample.  `parseCompactTime(5)` does not return
`{hour: 0, minute: 5}`: the pad character is a space, so the hour substring
is blank and parses to `NaN`. -/
theorem c2_counterexample :
    parseUntisTime 5 ≠ { hour := some 0, minute := some 5 } := by decide

/-- Claim C2, amended.  `parseCompactTime` left-pads its input to 4 characters
**with spaces** and splits into 2-character hour and minute substrings parsed
as integers, so for inputs below 10000 the minute is the last two digits and
the hour is `NaN` (`none`) for inputs below 100 and the leading digits
otherwise: `parseCompactTime(815) = {hour: 8, minute: 15}` but
`parseCompactTime(5) = {hour: NaN, minute: 5}`. -/
theorem c2_padding_amended :
    (∀ n : Nat, n < 10000 → parseUntisTime n =
      { hour := if 100 ≤ n then some ((n / 100 : Nat) : Int) else none,
        minute := some ((n % 100 : Nat) : Int) }) ∧
    parseUntisTime 815 = { hour := some 8, minute := some 15 } ∧
    parseUntisTime 5 = { hour := none, minute := some 5 } :=
  ⟨fun n h => parseUntisTime_spec n h, by decide, by decide⟩

/-- Claim C2 witness: the general clause of the amended theorem applied at 815. -/
theorem c2_witness :
    (815 : Nat) < 10000 ∧ parseUntisTime 815 =
      { hour := if 100 ≤ 815 then some (((815 : Nat) / 100 : Nat) : Int) else none,
        minute := some (((815 : Nat) % 100 : Nat) : Int) } :=
  ⟨by decide, c2_padding_amended.1 815 (by decide)⟩

/-- Claim C3: for every moment `now` at which it is invoked,
`parseCompactDate(20230914)` returns the calendar date September 14, 2023
(date-only: hours, minutes, seconds, milliseconds all zero); the result is a
single constant time value, so it depends only on the 8-digit input and not
on the current date. -/
theorem c3_parse_constant (now : Int) :
    parseUntisDateNum now 20230914 = some (dateValue 2023 9 14) ∧
    getFullYear (dateValue 2023 9 14) = 2023 ∧
    getMonth (dateValue 2023 9 14) + 1 = 9 ∧
    getDate (dateValue 2023 9 14) = 14 ∧
    getHours (dateValue 2023 9 14) = 0 ∧
    getMinutes (dateValue 2023 9 14) = 0 ∧
    getSeconds (dateValue 2023 9 14) = 0 ∧
    getMilliseconds (dateValue 2023 9 14) = 0 :=
  ⟨parse_20230914 now, by decide, by decide, by decide, by decide, by decide, by decide,
    by decide⟩

set_option maxRecDepth 10000 in
/-- Claim C4, counterexample.  The round-trip fails for `D = 2023-01-31` when
the current date is April 10, 2024: `setDate(31)` rolls over in 30-day April
before `setMonth` runs, and the parse returns January 1, 2023. -/
theorem c4_counterexample :
    parseUntisDate (dateValue 2024 4 10) (dateToUntisDate (dateValue 2023 1 31) "")
        = some (dateValue 2023 1 1) ∧
    parseUntisDate (dateValue 2024 4 10) (dateToUntisDate (dateValue 2023 1 31) "")
        ≠ some (dateValue 2023 1 31) := by
  constructor
  · decide
  · decide

/-- Claim C4, amended.  For every valid calendar date `D` with a four-digit
year, `parseCompactDate(formatCompactDate(D)) = D` (date-only) holds in every
current-date context in which `D`'s day-of-month fits both the current month
of the current year and the current month of `D`'s year (in particular, in
every context when the day is at most 28).  Without that restriction the
round-trip fails, because `parseCompactDate` mutates a `new Date()` seeded
with the current month, setting the day before the month. -/
theorem c4_roundtrip_amended (now : Int) (y m d : Nat)
    (hy1 : 1000 ≤ y) (hy2 : y ≤ 9999) (hm1 : 1 ≤ m) (hm2 : m ≤ 12) (hd1 : 1 ≤ d)
    (hd2 : (d : Int) ≤ daysInMonth (y : Int) m)
    (h1 : (d : Int) ≤ daysInMonth (getFullYear now) (getMonth now + 1).toNat)
    (h2 : (d : Int) ≤ daysInMonth (y : Int) (getMonth now + 1).toNat) :
    parseUntisDate now (dateToUntisDate (dateValue (y : Int) (m : Int) (d : Int)) "") =
      some (dateValue (y : Int) (m : Int) (d : Int)) :=
  roundtrip_general now y m d hy1 hy2 hm1 hm2 hd1 hd2 h1 h2

/-- Claim C4 witness: the amended round-trip applied to `D = 2023-01-31` in a
context whose current month (January 1970, `now = 0`) is long enough. -/
theorem c4_witness :
    ((31 : Nat) : Int) ≤ daysInMonth ((2023 : Nat) : Int) 1 ∧
    ((31 : Nat) : Int) ≤ daysInMonth (getFullYear 0) (getMonth 0 + 1).toNat ∧
    parseUntisDate 0 (dateToUntisDate (dateValue ((2023 : Nat) : Int) ((1 : Nat) : Int)
        ((31 : Nat) : Int)) "") =
      some (dateValue ((2023 : Nat) : Int) ((1 : Nat) : Int) ((31 : Nat) : Int)) :=
  ⟨by decide, by decide,
    c4_roundtrip_amended 0 2023 1 31 (by decide) (by decide) (by decide) (by decide)
      (by decide) (by decide) (by decide) (by decide)⟩

/-- Claim C5: on a client on which `authenticate` has not succeeded (both
`personId` and `sessionId` unset), `getAbsences`, `getTimetableWeek` and
`getCurrentSchoolyear` — called with otherwise valid arguments — fail with
`UnauthenticatedError` and issue zero network requests, whatever the
transport would have answered. -/
theorem c5_unauthenticated (now : Int) (c : Client)
    (hpid : c.personId = none) (hsess : c.sessionId = none) (sd ed d : Int)
    (respA : Except String AbsencesResponse) (respS : Except String SchoolyearResponse)
    (respT : Except String TTResponse) :
    getAbsences now c (some sd) (some ed) respA = (.error .unauthenticated, 0) ∧
    getTimetableWeek now c (some d) respT = (.error .unauthenticated, 0) ∧
    getCurrentSchoolyear now c respS = (.error .unauthenticated, 0) := by
  unfold getAbsences getTimetableWeek getCurrentSchoolyear
  rw [hsess]
  simp

/-- Claim C5 witness: the three unauthenticated failures on a freshly
constructed client, with transports that would have succeeded. -/
theorem c5_witness :
    clientFresh.personId = none ∧ clientFresh.sessionId = none ∧
    getAbsences 0 clientFresh (some 0) (some 0) (.ok ⟨some ⟨some []⟩⟩)
      = (.error .unauthenticated, 0) ∧
    getTimetableWeek 0 clientFresh (some 0)
        (.ok ⟨some ⟨some ⟨some ⟨some [], [1], [(1, [])]⟩⟩⟩⟩)
      = (.error .unauthenticated, 0) ∧
    getCurrentSchoolyear 0 clientFresh (.ok ⟨some ⟨some "2023/24", some 20230911,
        some 20240705⟩⟩)
      = (.error .unauthenticated, 0) := by
  have h := c5_unauthenticated 0 clientFresh rfl rfl 0 0 0
    (.ok ⟨some ⟨some []⟩⟩)
    (.ok ⟨some ⟨some "2023/24", some 20230911, some 20240705⟩⟩)
    (.ok ⟨some ⟨some ⟨some ⟨some [], [1], [(1, [])]⟩⟩⟩⟩)
  exact ⟨rfl, rfl, h.1, h.2.1, h.2.2⟩

/-- Claim C6: the sequence produced by the timetable normalization of
`getTimetableWeek` is sorted ascending by `startDate` (under the JS
comparator `a.startDate - b.startDate`), and the sort is stable: for every
start instant `t`, the entries starting at `t` appear in the output in
exactly their payload order (the order of the resolved, unsorted list). -/
theorem c6_sorted_stable (now : Int) (elems : List RawElement) (ps : List RawPeriod)
    (resolved out : List TimetableEntry)
    (hres : resolvePeriods now elems ps = .ok resolved)
    (hout : normalizeTimetable now elems ps = .ok out)
    (hval : ∀ e ∈ resolved, e.startDate.isSome) :
    out.Pairwise (fun a b => jsCmp a.startDate b.startDate ≤ 0) ∧
    ∀ t : Int, out.filter (fun e => e.startDate = some t) =
      resolved.filter (fun e => e.startDate = some t) := by
  have hout' : out = sortPeriods resolved := by
    obtain ⟨resolved', hres', hsort⟩ := normalizeTimetable_ok now elems ps out hout
    rw [hres] at hres'
    cases hres'
    exact hsort
  subst hout'
  constructor
  · have hp := pairwise_jsStableSort periodLe resolved
      (fun a _ b _ => by
        unfold periodLe
        rcases jsCmp_total a.startDate b.startDate with h | h
        · exact Or.inl (decide_eq_true h)
        · exact Or.inr (decide_eq_true h))
      (fun a ha b hb c hc hab hbc => by
        unfold periodLe at *
        obtain ⟨x, hx⟩ := Option.isSome_iff_exists.mp (hval a ha)
        obtain ⟨y, hy⟩ := Option.isSome_iff_exists.mp (hval b hb)
        obtain ⟨z, hz⟩ := Option.isSome_iff_exists.mp (hval c hc)
        have hab' := of_decide_eq_true hab
        have hbc' := of_decide_eq_true hbc
        rw [hx, hy] at hab'
        rw [hy, hz] at hbc'
        apply decide_eq_true
        rw [hx, hz]
        simp only [jsCmp] at hab' hbc' ⊢
        omega)
    exact hp.imp fun h => of_decide_eq_true h
  · intro t
    apply filter_jsStableSort
    intro a _ b _ hpa hpb
    have ha' := of_decide_eq_true hpa
    have hb' := of_decide_eq_true hpb
    unfold periodLe jsCmp
    rw [ha', hb']
    simp

set_option maxRecDepth 20000 in
/-- Claim C6 witness: a payload with one later period followed by two periods
sharing a start instant; the output is sorted and the tied pair keeps its
payload order. -/
theorem c6_witness :
    resolvePeriods 0 elemsMath [periodLate, periodTiedA, periodTiedB] = .ok
      [⟨some 1694426400000, some 1694429100000, "Math", false⟩,
        ⟨some 1694422800000, some 1694425500000, "Math", false⟩,
        ⟨some 1694422800000, some 1694425500000, "Math", true⟩] ∧
    normalizeTimetable 0 elemsMath [periodLate, periodTiedA, periodTiedB] = .ok
      [⟨some 1694422800000, some 1694425500000, "Math", false⟩,
        ⟨some 1694422800000, some 1694425500000, "Math", true⟩,
        ⟨some 1694426400000, some 1694429100000, "Math", false⟩] ∧
    ([⟨some 1694422800000, some 1694425500000, "Math", false⟩,
        ⟨some 1694422800000, some 1694425500000, "Math", true⟩,
        ⟨some 1694426400000, some 1694429100000, "Math", false⟩] :
          List TimetableEntry).Pairwise
      (fun a b => jsCmp a.startDate b.startDate ≤ 0) ∧
    ∀ t : Int, ([⟨some 1694422800000, some 1694425500000, "Math", false⟩,
        ⟨some 1694422800000, some 1694425500000, "Math", true⟩,
        ⟨some 1694426400000, some 1694429100000, "Math", false⟩] :
          List TimetableEntry).filter (fun e => e.startDate = some t) =
      ([⟨some 1694426400000, some 1694429100000, "Math", false⟩,
        ⟨some 1694422800000, some 1694425500000, "Math", false⟩,
        ⟨some 1694422800000, some 1694425500000, "Math", true⟩] :
          List TimetableEntry).filter (fun e => e.startDate = some t) := by
  have h := c6_sorted_stable 0 elemsMath [periodLate, periodTiedA, periodTiedB]
    [⟨some 1694426400000, some 1694429100000, "Math", false⟩,
      ⟨some 1694422800000, some 1694425500000, "Math", false⟩,
      ⟨some 1694422800000, some 1694425500000, "Math", true⟩]
    [⟨some 1694422800000, some 1694425500000, "Math", false⟩,
      ⟨some 1694422800000, some 1694425500000, "Math", true⟩,
      ⟨some 1694426400000, some 1694429100000, "Math", false⟩]
    rfl rfl (by decide)
  exact ⟨rfl, rfl, h.1, h.2⟩

/-- Claim C7: `parseCompactDateTime` equals, for every compact date and time
input (and every current moment), the composition the specification
describes: parse the date and the time, then set the result's hour to the
parsed hour plus one and its minute to the parsed minute. -/
theorem c7_composition (now : Int) (untisDate untisTime : Nat) :
    parseUntisDateTime now untisDate untisTime =
      specCompactDateTime now untisDate untisTime := rfl

/-- Claim C8: with an authenticated client, a weekly payload that contains no
entities and no periods normalizes to the empty sequence — `getTimetableWeek`
returns `ok []` (after its one network request) instead of raising. -/
theorem c8_empty_payload (now : Int) (date : Int) :
    getTimetableWeek now clientAuth (some date)
        (.ok ⟨some ⟨some ⟨some ⟨some [], [1], [(1, [])]⟩⟩⟩⟩) = (.ok [], 1) := rfl

/-- Claim C9: `authenticate` is atomic on failure: whenever the parsed response
lacks a usable `sessionId` or `personId` (the `result` object is absent, or
either field is absent or falsy), the call throws and the client's stored
`personId`/`sessionId` are unchanged; the fields are assigned only after both
values passed the check. -/
theorem c9_authenticate_atomic (c : Client) (u p : String) (r : AuthResponse)
    (hmiss : r.result = none ∨ ∃ res, r.result = some res ∧
      (res.sessionId.getD "" = "" ∨ res.personId.getD 0 = 0)) :
    (∃ e, (authenticate c u p (.ok r)).1 = .error e) ∧
    (authenticate c u p (.ok r)).2.1 = c := by
  unfold authenticate
  by_cases hu : u = "" ∨ p = ""
  · rw [if_pos hu]
    exact ⟨⟨.invalidArgument, rfl⟩, rfl⟩
  · rw [if_neg hu]
    simp only []
    rcases hmiss with h | ⟨res, hres, hf⟩
    · rw [h]
      exact ⟨⟨.jsCrash, rfl⟩, rfl⟩
    · rw [hres]
      simp only []
      rw [if_pos hf]
      exact ⟨⟨.protocolError, rfl⟩, rfl⟩

/-- Claim C9 witness: a response whose `result` lacks `personId` leaves a fresh
client unchanged and fails. -/
theorem c9_witness :
    ((⟨some ⟨some "abcdefabcdefabcdefabcdefabcdefab", none⟩⟩ : AuthResponse).result = none ∨
      ∃ res, (⟨some ⟨some "abcdefabcdefabcdefabcdefabcdefab", none⟩⟩ :
          AuthResponse).result = some res ∧
        (res.sessionId.getD "" = "" ∨ res.personId.getD 0 = 0)) ∧
    (∃ e, (authenticate clientFresh "user" "pw"
        (.ok ⟨some ⟨some "abcdefabcdefabcdefabcdefabcdefab", none⟩⟩)).1 = .error e) ∧
    (authenticate clientFresh "user" "pw"
        (.ok ⟨some ⟨some "abcdefabcdefabcdefabcdefabcdefab", none⟩⟩)).2.1 = clientFresh :=
  ⟨Or.inr ⟨⟨some "abcdefabcdefabcdefabcdefabcdefab", none⟩, rfl, Or.inr rfl⟩,
    (c9_authenticate_atomic clientFresh "user" "pw"
      ⟨some ⟨some "abcdefabcdefabcdefabcdefabcdefab", none⟩⟩
      (Or.inr ⟨⟨some "abcdefabcdefabcdefabcdefabcdefab", none⟩, rfl, Or.inr rfl⟩)).1,
    (c9_authenticate_atomic clientFresh "user" "pw"
      ⟨some ⟨some "abcdefabcdefabcdefabcdefabcdefab", none⟩⟩
      (Or.inr ⟨⟨some "abcdefabcdefabcdefabcdefabcdefab", none⟩, rfl, Or.inr rfl⟩)).2⟩

/-- Claim C10: `getTimetableWeek` validates its date argument before checking
the session: on an unauthenticated client and a missing date it raises the
insufficient-arguments error, not `UnauthenticatedError`, and makes no
network request. -/
theorem c10_arg_before_session (now : Int) (c : Client)
    (resp : Except String TTResponse) (hsess : c.sessionId = none) :
    getTimetableWeek now c none resp = (.error .invalidArgument, 0) := by
  unfold getTimetableWeek
  simp

/-- Claim C10 witness: the fresh client with a missing date. -/
theorem c10_witness :
    clientFresh.sessionId = none ∧
    getTimetableWeek 0 clientFresh none
        (.ok ⟨some ⟨some ⟨some ⟨some [], [1], [(1, [])]⟩⟩⟩⟩)
      = (.error .invalidArgument, 0) :=
  ⟨rfl, c10_arg_before_session 0 clientFresh
    (.ok ⟨some ⟨some ⟨some ⟨some [], [1], [(1, [])]⟩⟩⟩⟩) rfl⟩
